import Mathlib

/-!
# Verification of the banking-assistant session/authentication core

A shallow embedding, in Lean 4, of the state-bearing core of the
`bankingopenai` repository: the authentication manager, the session context
manager, the conversation manager, the flow engine, the text-extraction
helpers, and the tool-call processing fragments of the chatbot orchestrator.

Modelling conventions:
* Python dictionaries keyed by strings become association lists
  (`List (String × α)`); lookup returns the first binding.
* `time.time()` becomes an explicit `now : Int` parameter.
* Methods that mutate `self` become functions from the store to
  (result × store); raising becomes `Except`/explicit error outcomes.
* JSON values appearing in tool results are modelled by the inductive
  `RVal`; JSON-decoded tool-call arguments (string-valued in every call the
  orchestrator makes) are modelled as `List (String × Option String)`,
  `none` standing for JSON `null`.
-/

set_option autoImplicit false

namespace Banking

/-! ## Association-list helpers (Python `dict` keyed by strings) -/

/-- First-binding lookup, as in a Python `dict` (whose keys are unique). -/
def alookup {α : Type} : List (String × α) → String → Option α
  | [], _ => none
  | (k, v) :: t, key => if k = key then some v else alookup t key

/-- `d[k] = v`: replace the first binding of `k`, or append a fresh one. -/
def aset {α : Type} : List (String × α) → String → α → List (String × α)
  | [], key, v => [(key, v)]
  | (k, w) :: t, key, v =>
      if k = key then (key, v) :: t else (k, w) :: aset t key v

/-- `del d[k]` for every listed key: used by the expiry sweeps. -/
def adelAll {α : Type} (l : List (String × α)) (keys : List String) :
    List (String × α) :=
  l.filter (fun p => ¬ keys.contains p.1)

theorem alookup_aset_self {α : Type} (l : List (String × α)) (k : String) (v : α) :
    alookup (aset l k v) k = some v := by
  induction l with
  | nil => simp [alookup, aset]
  | cons h t ih =>
      by_cases hk : h.1 = k
      · simp [aset, hk, alookup]
      · simp [aset, hk, alookup, ih]

theorem alookup_aset_other {α : Type} (l : List (String × α)) (k k' : String)
    (v : α) (h : k ≠ k') : alookup (aset l k v) k' = alookup l k' := by
  induction l with
  | nil => simp [alookup, aset, h]
  | cons hd t ih =>
      by_cases hk : hd.1 = k
      · simp [aset, hk, alookup, h]
      · simp only [aset, hk, if_false, alookup]
        by_cases hk' : hd.1 = k'
        · simp [hk']
        · simp [hk', ih]

/-! ## AuthenticationManager (`src/services/authentication/auth_manager.py`)

The store maps a session id to `(account_number, last_activity)`.  The
account number recorded can be Python `None` on one orchestrator code path,
hence `Option String`. -/

/-- `AuthenticationManager.SESSION_TIMEOUT = 15 * 60` seconds. -/
def SESSION_TIMEOUT : Int := 15 * 60

/-- `self.authenticated_sessions : Dict[str, Tuple[str, float]]`. -/
abbrev AuthStore := List (String × (Option String × Int))

/-- `authenticate_session`: store `(account_number, time.time())`, overwriting. -/
def authenticate_session (store : AuthStore) (session_id : String)
    (account_number : Option String) (now : Int) : AuthStore :=
  aset store session_id (account_number, now)

/-- `is_authenticated`: a record exists and `now - last_activity ≤ SESSION_TIMEOUT`. -/
def is_authenticated (store : AuthStore) (session_id : String) (now : Int) : Bool :=
  match alookup store session_id with
  | none => false
  | some (_, last_activity) => decide (now - last_activity ≤ SESSION_TIMEOUT)

/-- `is_authenticated` as the store-passing operation it is in the class:
a read that hands the store back untouched. -/
def is_authenticated_op (store : AuthStore) (session_id : String) (now : Int) :
    Bool × AuthStore :=
  (is_authenticated store session_id now, store)

/-- `update_session_activity`: refresh the timestamp if a record exists. -/
def update_session_activity (store : AuthStore) (session_id : String)
    (now : Int) : AuthStore :=
  match alookup store session_id with
  | none => store
  | some (account_number, _) => aset store session_id (account_number, now)

/-- One record is expired when `now - last_activity > SESSION_TIMEOUT`. -/
def authExpired (now : Int) (p : String × (Option String × Int)) : Bool :=
  decide (SESSION_TIMEOUT < now - p.2.2)

/-- `cleanup_expired_sessions`: collect the expired ids, delete them, and
return the removed ids together with the surviving store. -/
def cleanup_expired_sessions (store : AuthStore) (now : Int) :
    List String × AuthStore :=
  let expired := (store.filter (authExpired now)).map (·.1)
  (expired, adelAll store expired)

/-- `AuthenticationManager.end_session`: remove the record, report presence. -/
def auth_end_session (store : AuthStore) (session_id : String) :
    Bool × AuthStore :=
  match alookup store session_id with
  | none => (false, store)
  | some _ => (true, adelAll store [session_id])

/-! ## SessionContextManager (`src/chat/session_context_manager.py`)

The per-session context dictionary.  The source stores a `dict` with a
fixed key set written at `initialize_session`; we model it as a structure
over exactly those keys (the code never adds others). -/

/-- One entry of `retrieved_accounts`: the dictionaries produced by
`MobileAuthService.get_accounts_by_mobile` (plus the `pin` key present on
mock data, read only by the debug helper). -/
structure Account where
  account_number : String
  masked_account : String
  pin : Option String := none
  deriving DecidableEq, Repr

/-- The per-session context dict created by `initialize_session`. -/
structure SessionCtx where
  created_at : Int
  last_activity : Int
  caller_id : Option String
  channel : String
  account_retrieved : Bool
  account_selected : Bool
  retrieved_accounts : List Account
  selected_account : Option String
  awaiting_pin : Bool
  call_id : String
  deriving DecidableEq, Repr

abbrev SessionStore := List (String × SessionCtx)

/-- `session_id[-10:]`: the last (at most) ten characters. -/
def lastTen (s : String) : String :=
  ⟨s.data.drop (s.data.length - 10)⟩

/-- The context built by `initialize_session`:
all flags false, empty account list, no selection,
`call_id = f"{int(time.time())}{session_id[-10:]}"`. -/
def freshCtx (session_id : String) (caller_id : Option String)
    (channel : String) (now : Int) : SessionCtx :=
  { created_at := now
    last_activity := now
    caller_id := caller_id
    channel := channel
    account_retrieved := false
    account_selected := false
    retrieved_accounts := []
    selected_account := none
    awaiting_pin := false
    call_id := toString now ++ lastTen session_id }

/-- `initialize_session(session_id, caller_id=None, channel="web")`. -/
def initialize_session (store : SessionStore) (session_id : String)
    (caller_id : Option String) (channel : String) (now : Int) : SessionStore :=
  aset store session_id (freshCtx session_id caller_id channel now)

/-- A partial update handed to `update_session_context`: `some` marks a key
present in the `updates` dict.  Only keys the repository ever writes are
representable (the session dict has a fixed key set). -/
structure CtxPatch where
  caller_id : Option (Option String) := none
  channel : Option String := none
  account_retrieved : Option Bool := none
  account_selected : Option Bool := none
  retrieved_accounts : Option (List Account) := none
  selected_account : Option (Option String) := none
  awaiting_pin : Option Bool := none

/-- `for key, value in updates.items(): context[key] = value`. -/
def applyPatch (ctx : SessionCtx) (p : CtxPatch) : SessionCtx :=
  { ctx with
    caller_id := p.caller_id.getD ctx.caller_id
    channel := p.channel.getD ctx.channel
    account_retrieved := p.account_retrieved.getD ctx.account_retrieved
    account_selected := p.account_selected.getD ctx.account_selected
    retrieved_accounts := p.retrieved_accounts.getD ctx.retrieved_accounts
    selected_account := p.selected_account.getD ctx.selected_account
    awaiting_pin := p.awaiting_pin.getD ctx.awaiting_pin }

/-- `update_session_context`: auto-initialize when missing, merge the
updates, then always bump `last_activity`. -/
def update_session_context (store : SessionStore) (session_id : String)
    (updates : CtxPatch) (now : Int) : SessionStore :=
  let store := match alookup store session_id with
    | none => initialize_session store session_id none "web" now
    | some _ => store
  match alookup store session_id with
  | none => store
  | some ctx =>
      aset store session_id { applyPatch ctx updates with last_activity := now }

/-- `get_session_context`: auto-initializes a missing session (a side
effect of this read), then returns the stored dict. -/
def get_session_context (store : SessionStore) (session_id : String)
    (now : Int) : SessionCtx × SessionStore :=
  match alookup store session_id with
  | none =>
      let store' := initialize_session store session_id none "web" now
      (freshCtx session_id none "web" now, store')
  | some ctx => (ctx, store)

/-- `get_caller_id`. -/
def get_caller_id (store : SessionStore) (session_id : String) (now : Int) :
    Option String × SessionStore :=
  let (ctx, store') := get_session_context store session_id now
  (ctx.caller_id, store')

/-- `get_call_id`. -/
def get_call_id (store : SessionStore) (session_id : String) (now : Int) :
    String × SessionStore :=
  let (ctx, store') := get_session_context store session_id now
  (ctx.call_id, store')

/-- `set_retrieved_accounts`: replace the list and reset the whole
selection lifecycle. -/
def set_retrieved_accounts (store : SessionStore) (session_id : String)
    (accounts : List Account) (now : Int) : SessionStore :=
  update_session_context store session_id
    { retrieved_accounts := some accounts
      account_retrieved := some true
      account_selected := some false
      selected_account := some none
      awaiting_pin := some false } now

/-- `set_selected_account`: `raise ValueError` when
`len(account_number) < 10`, otherwise store the selection and raise the
`account_selected`/`awaiting_pin` flags.  The store component of the result
is the store as left by the call (unchanged when the error is raised,
since the `raise` precedes the update). -/
def set_selected_account (store : SessionStore) (session_id : String)
    (account_number : String) (now : Int) : Except String Unit × SessionStore :=
  if account_number.length < 10 then
    (Except.error ("Invalid account number format: " ++ account_number), store)
  else
    (Except.ok (),
     update_session_context store session_id
       { selected_account := some (some account_number)
         account_selected := some true
         awaiting_pin := some true } now)

/-- `get_selected_account`: read-side re-validation.  The source code guard
is `if account_number and len(account_number) < 10: return None` — the
Python truthiness test, so the empty string slips past the guard. -/
def get_selected_account (store : SessionStore) (session_id : String)
    (now : Int) : Option String × SessionStore :=
  let (ctx, store') := get_session_context store session_id now
  match ctx.selected_account with
  | none => (none, store')
  | some s => if s ≠ "" ∧ s.length < 10 then (none, store') else (some s, store')

/-- `is_account_selected`. -/
def is_account_selected (store : SessionStore) (session_id : String)
    (now : Int) : Bool × SessionStore :=
  let (ctx, store') := get_session_context store session_id now
  (ctx.account_selected, store')

/-- `is_awaiting_pin`. -/
def is_awaiting_pin (store : SessionStore) (session_id : String) (now : Int) :
    Bool × SessionStore :=
  let (ctx, store') := get_session_context store session_id now
  (ctx.awaiting_pin, store')

/-- `get_retrieved_accounts`. -/
def get_retrieved_accounts (store : SessionStore) (session_id : String)
    (now : Int) : List Account × SessionStore :=
  let (ctx, store') := get_session_context store session_id now
  (ctx.retrieved_accounts, store')

/-- `has_accounts`. -/
def has_accounts (store : SessionStore) (session_id : String) (now : Int) :
    Bool × SessionStore :=
  let (ctx, store') := get_session_context store session_id now
  (ctx.account_retrieved, store')

/-- `clear_expired_sessions`. -/
def clear_expired_sessions (store : SessionStore)
    (expired_session_ids : List String) : SessionStore :=
  adelAll store expired_session_ids

/-- `SessionContextManager.end_session`. -/
def ctx_end_session (store : SessionStore) (session_id : String) :
    Bool × SessionStore :=
  match alookup store session_id with
  | none => (false, store)
  | some _ => (true, adelAll store [session_id])

/-! ## Tool results and conversation history

Tool results are the JSON dictionaries the services return; conversation
entries are the message dicts the `ConversationManager` appends.  A tool
response is persisted as `json.dumps(result)`; we keep the structured value
(the dump is determined by it). -/

/-- A JSON value as appearing in tool results. -/
inductive RVal where
  | rnull : RVal
  | rbool : Bool → RVal
  | rint : Int → RVal
  | rstr : String → RVal
  | raccts : List Account → RVal
  | rdict : List (String × RVal) → RVal

/-- A tool result: a JSON object. -/
abbrev RDict := List (String × RVal)

/-- Python truthiness of an `RVal`. -/
def rtruthy : RVal → Bool
  | RVal.rnull => false
  | RVal.rbool b => b
  | RVal.rint n => n ≠ 0
  | RVal.rstr s => s ≠ ""
  | RVal.raccts l => !l.isEmpty
  | RVal.rdict d => !d.isEmpty

/-- `result.get(key, default)`. -/
def rget (d : RDict) (key : String) (dflt : RVal) : RVal :=
  (alookup d key).getD dflt

/-- JSON-decoded tool-call arguments.  Every argument value the
orchestrator reads or writes is a string or `null`; `none` is `null`. -/
abbrev Args := List (String × Option String)

/-- One turn of the persisted conversation (`role`, `content`, and for
assistant tool-call turns the single tool-call descriptor). -/
inductive HEntry where
  | system : String → HEntry
  | user : String → HEntry
  | assistant : String → HEntry
  | toolCall : (id : String) → (name : String) → (args : Args) → HEntry
  | toolResponse : (tool_call_id : String) → (content : RDict) → HEntry

/-! ### ConversationManager (`src/chat/conversation_manager.py`) -/

abbrev ConvStore := List (String × List HEntry)

/-- `_get_initial_prompt`. -/
def initial_prompt (system_prompt : String) : List HEntry :=
  [HEntry.system system_prompt]

/-- `get_conversation`: materializes `[system_prompt]` if absent. -/
def get_conversation (store : ConvStore) (system_prompt : String)
    (session_id : String) : List HEntry × ConvStore :=
  match alookup store session_id with
  | none =>
      (initial_prompt system_prompt,
       aset store session_id (initial_prompt system_prompt))
  | some conv => (conv, store)

/-- The shared auto-initialize-and-append body of the `add_*` methods. -/
def conv_append (store : ConvStore) (system_prompt : String)
    (session_id : String) (entry : HEntry) : ConvStore :=
  match alookup store session_id with
  | none => aset store session_id (initial_prompt system_prompt ++ [entry])
  | some conv => aset store session_id (conv ++ [entry])

def add_user_message (store : ConvStore) (sp sid msg : String) : ConvStore :=
  conv_append store sp sid (HEntry.user msg)

def add_assistant_message (store : ConvStore) (sp sid msg : String) : ConvStore :=
  conv_append store sp sid (HEntry.assistant msg)

def add_system_message (store : ConvStore) (sp sid msg : String) : ConvStore :=
  conv_append store sp sid (HEntry.system msg)

def add_tool_call (store : ConvStore) (sp sid : String)
    (id name : String) (args : Args) : ConvStore :=
  conv_append store sp sid (HEntry.toolCall id name args)

def add_tool_response (store : ConvStore) (sp sid : String)
    (tool_call_id : String) (content : RDict) : ConvStore :=
  conv_append store sp sid (HEntry.toolResponse tool_call_id content)

/-! ## Text extraction (`src/utils/text_extraction.py`)

`extract_last_4_digits` tries five regular expressions in order, each with
`re.search` (leftmost match) and `re.IGNORECASE`.  We implement exactly
those patterns over the lowercased character list; `\w`/`\d`/`\s` are taken
in their ASCII reading (the messages the repository handles are ASCII). -/

/-- `\w`: ASCII letters, digits and underscore. -/
def isWordChar (c : Char) : Bool := c.isAlphanum || c = '_'

/-- Match a literal (already lowercased) string, returning the remainder. -/
def eatLit : List Char → List Char → Option (List Char)
  | [], rest => some rest
  | _ :: _, [] => none
  | c :: cs, d :: ds => if d = c then eatLit cs ds else none

/-- `\s+` (one or more whitespace, maximal munch — the following pattern
element is never whitespace, so this is exact). -/
def eatSpaces1 : List Char → Option (List Char)
  | [] => none
  | c :: cs =>
      if c.isWhitespace then some (cs.dropWhile Char.isWhitespace) else none

/-- An optional literal character (`s?`): the following element is never
that character, so greedy consumption is exact. -/
def eatOpt (c : Char) : List Char → List Char
  | [] => []
  | d :: ds => if d = c then ds else d :: ds

/-- `(\d{4})`: four digit characters, captured. -/
def eatDigits4 : List Char → Option (String × List Char)
  | a :: b :: c :: d :: rest =>
      if a.isDigit && b.isDigit && c.isDigit && d.isDigit then
        some (String.mk [a, b, c, d], rest)
      else none
  | _ => none

/-- `\w+` (maximal munch — always followed by `\s+` in our patterns, so
backtracking can never produce a different outcome). -/
def eatWord1 : List Char → Option (List Char)
  | [] => none
  | c :: cs => if isWordChar c then some (cs.dropWhile isWordChar) else none

/-- `\b(\d{4})\b` at this position: `prev` is the preceding character. -/
def matchBareAt (prev : Option Char) (l : List Char) : Option String :=
  let boundaryBefore := match prev with
    | none => true
    | some c => !isWordChar c
  if boundaryBefore then
    match eatDigits4 l with
    | some (s, rest) =>
        match rest with
        | [] => some s
        | c :: _ => if isWordChar c then none else some s
    | none => none
  else none

/-- `last\s+four\s+digits?\s+(\d{4})` at this position. -/
def matchLastFourAt (l : List Char) : Option String := do
  let r ← eatLit "last".data l
  let r ← eatSpaces1 r
  let r ← eatLit "four".data r
  let r ← eatSpaces1 r
  let r ← eatLit "digit".data r
  let r := eatOpt 's' r
  let r ← eatSpaces1 r
  let (s, _) ← eatDigits4 r
  pure s

/-- `ending\s+in\s+(\d{4})` at this position. -/
def matchEndingAt (l : List Char) : Option String := do
  let r ← eatLit "ending".data l
  let r ← eatSpaces1 r
  let r ← eatLit "in".data r
  let r ← eatSpaces1 r
  let (s, _) ← eatDigits4 r
  pure s

/-- `ends?\s+with\s+(\d{4})` at this position. -/
def matchEndsWithAt (l : List Char) : Option String := do
  let r ← eatLit "end".data l
  let r := eatOpt 's' r
  let r ← eatSpaces1 r
  let r ← eatLit "with".data r
  let r ← eatSpaces1 r
  let (s, _) ← eatDigits4 r
  pure s

/-- `account\s+\w+\s+(\d{4})` at this position. -/
def matchAccountAt (l : List Char) : Option String := do
  let r ← eatLit "account".data l
  let r ← eatSpaces1 r
  let r ← eatWord1 r
  let r ← eatSpaces1 r
  let (s, _) ← eatDigits4 r
  pure s

/-- `re.search`: try the position matcher at every start, leftmost first,
threading the previous character (for `\b`). -/
def scanFrom (f : Option Char → List Char → Option String) :
    Option Char → List Char → Option String
  | prev, [] => f prev []
  | prev, c :: rest =>
      match f prev (c :: rest) with
      | some s => some s
      | none => scanFrom f (some c) rest

/-- `re.search(pattern, message, re.IGNORECASE)` over the whole message
(case-insensitivity realized by lowercasing the input; the captured digits
are unaffected). -/
def research (f : Option Char → List Char → Option String) (msg : String) :
    Option String :=
  scanFrom f none (msg.data.map Char.toLower)

/-- The bare scan, pattern 1 of the source list: `r'\b(\d{4})\b'`. -/
def bare_scan (message : String) : Option String :=
  research matchBareAt message

/-- The explicit-phrasing patterns, source patterns 2–5 in order:
`last four digits`, `ending in`, `ends with`, `account <word>`. -/
def explicit_scan (message : String) : Option String :=
  (research (fun _ => matchLastFourAt) message).orElse fun _ =>
  (research (fun _ => matchEndingAt) message).orElse fun _ =>
  (research (fun _ => matchEndsWithAt) message).orElse fun _ =>
  research (fun _ => matchAccountAt) message

/-- `extract_last_4_digits`: the five patterns tried in source order — the
bare `\b(\d{4})\b` scan first, then the explicit phrasings. -/
def extract_last_4_digits (message : String) : Option String :=
  (bare_scan message).orElse fun _ => explicit_scan message

/-! ## FlowEngine (`src/core/flow/flow_manager.py`)

The flow context is a dict mixing caller-supplied values, tool results
extracted by result processors, the `flow_results` map and (at the end)
`executed_steps`.  In the source, `context["flow_results"]` aliases the
mutable dict that the loop updates; here the accumulated map is re-written
into the context at each recording point, which coincides with the aliasing
semantics because no step of the repository ever writes the reserved keys
through a result processor. -/

mutual
/-- A flow-context value. -/
inductive FVal where
  | fr : RVal → FVal
  | fsteps : List String → FVal
  | fresults : List (String × StepRes) → FVal

/-- One `flow_results` entry: `{status, result}` or `{status, error}`. -/
inductive StepRes where
  | success : RDict → StepRes
  | validation_failed : RDict → StepRes
  | error : String → StepRes
end

abbrev FCtx := List (String × FVal)

/-- `FlowStep`: tool name, argument declarations and the three optional
callbacks. -/
structure FlowStep where
  name : String
  tool_name : String
  required_args : List String
  optional_args : List String := []
  precondition : Option (FCtx → Bool) := none
  postcondition : Option (FCtx → RDict → Bool) := none
  result_processor : Option (FCtx → RDict → List (String × FVal)) := none

/-- `FlowStep.can_execute`: every required arg present in the context, and
the precondition (when given) holds. -/
def FlowStep.can_execute (step : FlowStep) (context : FCtx) : Bool :=
  step.required_args.all (fun a => (alookup context a).isSome) &&
    (match step.precondition with
     | none => true
     | some p => p context)

/-- `FlowStep.build_args`: required args copied verbatim, optional args
only when present.  (`context[arg]` on the required args cannot fail in the
flow loop because `can_execute` was checked first.) -/
def FlowStep.build_args (step : FlowStep) (context : FCtx) : FCtx :=
  step.required_args.filterMap (fun a => (alookup context a).map ((a, ·))) ++
    step.optional_args.filterMap (fun a => (alookup context a).map ((a, ·)))

/-- `FlowStep.process_result`: `{}` when no result processor is declared. -/
def FlowStep.process_result (step : FlowStep) (args : FCtx) (result : RDict) :
    List (String × FVal) :=
  match step.result_processor with
  | none => []
  | some f => f args result

/-- `FlowStep.validate_result`: `True` when no postcondition is declared. -/
def FlowStep.validate_result (step : FlowStep) (args : FCtx) (result : RDict) :
    Bool :=
  match step.postcondition with
  | none => true
  | some p => p args result

/-- The tool registry as the flow engine sees it: `execute_tool` either
returns a result dict or raises (the `Except.error` carries `str(e)`). -/
abbrev FlowReg := String → FCtx → Except String RDict

/-- The `for step in self.steps` loop of `ServiceFlow.execute`:
skip when `can_execute` fails; on a raised tool call record
`status=error` and halt; on a failed postcondition record
`status=validation_failed` and halt; on success record the result, merge
the extracted values, and append the step name to `executed_steps`. -/
def flowGo (reg : FlowReg) :
    List FlowStep → FCtx → List (String × StepRes) → List String → FCtx
  | [], ctx, _, ex => aset ctx "executed_steps" (FVal.fsteps ex)
  | step :: rest, ctx, acc, ex =>
      if step.can_execute ctx then
        let args := step.build_args ctx
        match reg step.tool_name args with
        | Except.error e =>
            let acc' := aset acc step.name (StepRes.error e)
            aset (aset ctx "flow_results" (FVal.fresults acc'))
              "executed_steps" (FVal.fsteps ex)
        | Except.ok result =>
            if step.validate_result args result then
              let acc' := aset acc step.name (StepRes.success result)
              let ctx' := aset ctx "flow_results" (FVal.fresults acc')
              let ctx'' := (step.process_result args result).foldl
                (fun c kv => aset c kv.1 kv.2) ctx'
              flowGo reg rest ctx'' acc' (ex ++ [step.name])
            else
              let acc' := aset acc step.name (StepRes.validation_failed result)
              aset (aset ctx "flow_results" (FVal.fresults acc'))
                "executed_steps" (FVal.fsteps ex)
      else flowGo reg rest ctx acc ex

/-- `ServiceFlow`: an immutable named sequence of steps. -/
structure ServiceFlow where
  name : String
  description : String
  steps : List FlowStep

/-- `ServiceFlow.execute`: seed `flow_results`, run the loop, and finally
write `executed_steps`. -/
def ServiceFlow.execute (flow : ServiceFlow) (reg : FlowReg)
    (initial_context : FCtx) : FCtx :=
  flowGo reg flow.steps (aset initial_context "flow_results" (FVal.fresults []))
    [] []

/-! ## Orchestrator tool-call processing (`src/chat/banking_chatbot.py`)

The fragments below model `_process_tool_result`, `_process_tool_calls`,
`_handle_pin_validation` and the account-digits region of
`_process_authentication_state`.  Each returns the list of conversation
entries it appends (in order) together with the updated session/auth
stores; exceptions that the source lets escape to the `process_message`
catch-all are an explicit aborted outcome. -/

/-- One tool call from the LLM: id, function name, JSON-decoded arguments. -/
structure ToolCall where
  id : String
  name : String
  args : Args
  deriving DecidableEq, Repr

/-- What `registry.execute_tool` (or a service `execute_tool`) does:
return a dict, or raise.  `ValueError` and `KeyError` are distinguished
because `_process_tool_calls` catches exactly those two; anything else
escapes. -/
inductive RegOutcome where
  | ok : RDict → RegOutcome
  | raiseValue : String → RegOutcome
  | raiseKey : String → RegOutcome
  | raiseOther : String → RegOutcome

abbrev Registry := String → Args → RegOutcome

/-- Python `str.endswith`. -/
def pyEndsWith (s suffix : String) : Bool :=
  suffix.data.isSuffixOf s.data

/-- `v == "success"` for a JSON value. -/
def risStr (v : RVal) (s : String) : Bool :=
  match v with
  | RVal.rstr t => t = s
  | _ => false

/-- Python `len` on a JSON value (`None` where `len` raises `TypeError`). -/
def rlen : RVal → Option Nat
  | RVal.rstr s => some s.length
  | RVal.raccts l => some l.length
  | RVal.rdict d => some d.length
  | _ => none

/-- `str(value)` as interpolated into the reply templates.  Every value the
repository interpolates is a string; the other cases are placeholders. -/
def rshow : RVal → String
  | RVal.rstr s => s
  | RVal.rbool b => if b then "True" else "False"
  | RVal.rint n => toString n
  | RVal.rnull => "None"
  | RVal.raccts _ => "<accounts>"
  | RVal.rdict _ => "<dict>"

/-- The system guidance appended after a successful account lookup: the
only account information it carries is the count. -/
def foundAccountsMsg (num_accounts : Nat) : String :=
  "The system has found " ++ toString num_accounts ++
  " account(s) associated with the caller's phone number. " ++
  "Ask the user to provide the last 4 digits of their account number to " ++
  "confirm which account they want to access. " ++
  "IMPORTANT: Do not list or reveal any account numbers to the user. " ++
  "This is a security measure."

def selectionErrorGuidanceMsg : String :=
  "There was an error with the account number validation. " ++
  "Ask the user to try again with the correct account number."

/-- An uncaught Python exception leaving `_process_tool_result`:
`KeyError` is caught by the caller, anything else escapes the whole
tool-call loop. -/
inductive PErr where
  | keyE : String → PErr
  | fatalE : String → PErr
  deriving DecidableEq, Repr

/-- Result of `_process_tool_result`: appended entries, updated stores and
the exception that escaped, if any. -/
structure PTRes where
  entries : List HEntry
  sessions : SessionStore
  auth : AuthStore
  err : Option PErr

/-- The `validate_account` short-number recovery (source lines 749–797):
resolve an argument of length ≤ 4 to a full account number via the session
cache, else via a fresh `get_accounts_by_mobile` lookup whose own failures
are swallowed. -/
def resolveShortAccount (reg : Registry) (ctx : SessionCtx) (short : String) :
    Option String :=
  let fromSession :=
    if ctx.account_retrieved then
      (ctx.retrieved_accounts.find? (fun a => pyEndsWith a.account_number short)).map
        (·.account_number)
    else none
  match fromSession with
  | some full => some full
  | none =>
      match ctx.caller_id with
      | none => none
      | some mobile =>
          match reg "get_accounts_by_mobile" [("mobile_number", some mobile)] with
          | RegOutcome.ok r =>
              if risStr (rget r "status" RVal.rnull) "success" then
                match rget r "accounts" RVal.rnull with
                | RVal.raccts l =>
                    (l.find? (fun a => pyEndsWith a.account_number short)).map
                      (·.account_number)
                | _ => none
              else none
          | _ => none

/-- The `validate_pin` short-number recovery (source lines 823–850):
prefer the already-selected account when longer than 4 characters, else a
session-cache suffix match. -/
def resolvePinAccount (ctx : SessionCtx) (short : String) : Option String :=
  let fromSelected :=
    match ctx.selected_account with
    | some s => if s ≠ "" ∧ s.length < 10 then none else some s
    | none => none
  let fromSelected :=
    match fromSelected with
    | some s => if s.length > 4 then some s else none
    | none => none
  match fromSelected with
  | some full => some full
  | none =>
      if ctx.account_retrieved then
        (ctx.retrieved_accounts.find? (fun a => pyEndsWith a.account_number short)).map
          (·.account_number)
      else none

/-- `_process_tool_result`. -/
def process_tool_result (reg : Registry) (now : Int) (sessions : SessionStore)
    (auth : AuthStore) (session_id : String) (function_name : String)
    (function_args : Args) (result : RDict) (tool_call_id : String) : PTRes :=
  if function_name = "get_accounts_by_mobile" then
    -- `sanitized_result = {"status": result["status"], "message":
    -- result["message"], "accounts_found": len(result.get("accounts", [])) > 0}`
    match alookup result "status" with
    | none => ⟨[], sessions, auth, some (PErr.keyE "status")⟩
    | some sv =>
        match alookup result "message" with
        | none => ⟨[], sessions, auth, some (PErr.keyE "message")⟩
        | some mv =>
            match rlen (rget result "accounts" (RVal.raccts [])) with
            | none => ⟨[], sessions, auth, some (PErr.fatalE "TypeError: len")⟩
            | some n =>
                let sanitized : RDict :=
                  [("status", sv), ("message", mv),
                   ("accounts_found", RVal.rbool (decide (0 < n)))]
                let e0 := [HEntry.toolResponse tool_call_id sanitized]
                if risStr sv "success" then
                  match alookup result "accounts" with
                  | none => ⟨e0, sessions, auth, some (PErr.keyE "accounts")⟩
                  | some (RVal.raccts l) =>
                      let sessions' := set_retrieved_accounts sessions session_id l now
                      ⟨e0 ++ [HEntry.system (foundAccountsMsg l.length)],
                       sessions', auth, none⟩
                  | some _ =>
                      ⟨e0, sessions, auth, some (PErr.fatalE "TypeError: iteration")⟩
                else ⟨e0, sessions, auth, none⟩
  else
    let e0 := [HEntry.toolResponse tool_call_id result]
    if function_name = "validate_account" ∧
        rtruthy (rget result "valid" (RVal.rbool false)) then
      match alookup function_args "account_number" with
      | none => ⟨e0, sessions, auth, some (PErr.fatalE "TypeError: len(None)")⟩
      | some none => ⟨e0, sessions, auth, some (PErr.fatalE "TypeError: len(None)")⟩
      | some (some short) =>
          -- the session context is consulted only on the short-number path
          if short.length ≤ 4 then
            let (ctx, sessions1) := get_session_context sessions session_id now
            let account := (resolveShortAccount reg ctx short).getD short
            -- `try: set_selected_account … except ValueError: add_system_message`
            if account.length < 10 then
              ⟨e0 ++ [HEntry.system selectionErrorGuidanceMsg], sessions1, auth,
               none⟩
            else
              ⟨e0, (set_selected_account sessions1 session_id account now).2,
               auth, none⟩
          else if short.length < 10 then
            ⟨e0 ++ [HEntry.system selectionErrorGuidanceMsg], sessions, auth,
             none⟩
          else
            ⟨e0, (set_selected_account sessions session_id short now).2, auth,
             none⟩
    else if function_name = "validate_pin" ∧
        rtruthy (rget result "valid" (RVal.rbool false)) then
      match alookup function_args "account_number" with
      | none => ⟨e0, sessions, auth, some (PErr.fatalE "TypeError: len(None)")⟩
      | some none => ⟨e0, sessions, auth, some (PErr.fatalE "TypeError: len(None)")⟩
      | some (some short) =>
          if short.length ≤ 4 then
            let (ctx, sessions1) := get_session_context sessions session_id now
            ⟨e0, sessions1,
             authenticate_session auth session_id
               (some ((resolvePinAccount ctx short).getD short)) now, none⟩
          else
            ⟨e0, sessions,
             authenticate_session auth session_id (some short) now, none⟩
    else if function_name = "get_account_details" ∧
        risStr (rget result "status" RVal.rnull) "success" then
      ⟨e0, sessions,
       authenticate_session auth session_id
         ((alookup function_args "account_number").join) now, none⟩
    else ⟨e0, sessions, auth, none⟩

/-- The user-facing reply when a ≤4-digit account number fails validation. -/
def noAccountEndingMsg (last_digits : String) : String :=
  "I'm sorry, but I couldn't find an account ending with " ++ last_digits ++
  " associated with your phone number. Please check the last 4 digits of " ++
  "your account number and try again."

/-- Whether the two id arguments are injected for `get_accounts_by_mobile`
(`"call_id" not in function_args`). -/
def injectIds (tc : ToolCall) : Bool :=
  tc.name = "get_accounts_by_mobile" ∧ (alookup tc.args "call_id").isNone

/-- Whether the session's caller id is injected (`mobile_number`). -/
def injectMobile (tc : ToolCall) (caller_id : Option String) : Bool :=
  caller_id.isSome ∧
    (tc.name = "validate_account" ∨ tc.name = "validate_pin" ∨
     tc.name = "get_account_details")

/-- The arguments actually passed to `registry.execute_tool` by the second
loop of `_process_tool_calls`. -/
def loop_full_args (tc : ToolCall) (session_id : String)
    (caller_id : Option String) (call_id : String) : Args :=
  let a1 :=
    if injectIds tc then
      aset (aset tc.args "call_id" (some call_id)) "session_id"
        (some session_id)
    else tc.args
  if injectMobile tc caller_id then aset a1 "mobile_number" caller_id else a1

/-- The arguments written into history by the second loop: identical to the
full arguments except that a present `pin` is replaced by `****`. -/
def loop_sanitized_args (tc : ToolCall) (session_id : String)
    (caller_id : Option String) (call_id : String) : Args :=
  let a0 :=
    if (alookup tc.args "pin").isSome then aset tc.args "pin" (some "****")
    else tc.args
  let a1 :=
    if injectIds tc then
      aset (aset a0 "call_id" (some call_id)) "session_id" (some session_id)
    else a0
  if injectMobile tc caller_id then aset a1 "mobile_number" caller_id else a1

/-- Running state of the `_process_tool_calls` loops. -/
structure PTCState where
  entries : List HEntry
  sessions : SessionStore
  auth : AuthStore
  executed : List (String × Args)
  lastSanitized : Option ToolCall
  aborted : Bool

/-- The second loop of `_process_tool_calls` (source lines 630–687).
`avr`/`avid` are `account_validation_result`/`account_validation_tool_id`.
On a raise out of `registry.execute_tool`, `sanitized_tool_call` still
holds the previous iteration's value (the assignment sits after the
call inside the `try`); when there was none, the handler's use of the
unbound name raises `NameError`, which nothing catches. -/
def ptcLoop (reg : Registry) (now : Int) (session_id : String)
    (caller_id : Option String) (call_id : String) (avr : Option RDict)
    (avid : Option String) : List ToolCall → PTCState → PTCState
  | [], st => st
  | tc :: rest, st =>
      if st.aborted then st
      else if tc.name = "validate_account" ∧ avid = some tc.id then
        ptcLoop reg now session_id caller_id call_id avr avid rest st
      else if tc.name = "validate_pin" ∧
          ((match avr with
            | some r => !r.isEmpty && !rtruthy (rget r "valid" (RVal.rbool false))
            | none => false) : Bool) = true then
        ptcLoop reg now session_id caller_id call_id avr avid rest st
      else
        let fargs := loop_full_args tc session_id caller_id call_id
        let sargs := loop_sanitized_args tc session_id caller_id call_id
        let st := { st with executed := st.executed ++ [(tc.name, fargs)] }
        match reg tc.name fargs with
        | RegOutcome.ok r =>
            let san : ToolCall := ⟨tc.id, tc.name, sargs⟩
            let st := { st with
              entries := st.entries ++ [HEntry.toolCall tc.id tc.name sargs]
              lastSanitized := some san }
            let ptr := process_tool_result reg now st.sessions st.auth
              session_id tc.name fargs r tc.id
            let st := { st with
              entries := st.entries ++ ptr.entries
              sessions := ptr.sessions
              auth := ptr.auth }
            match ptr.err with
            | none => ptcLoop reg now session_id caller_id call_id avr avid rest st
            | some (PErr.keyE e) =>
                -- `except KeyError`: re-append the (current) sanitized call
                -- and an error response, then continue
                let st := { st with entries := st.entries ++
                  [HEntry.toolCall tc.id tc.name sargs,
                   HEntry.toolResponse tc.id
                     [("error", RVal.rstr ("Missing required parameter: " ++ e))]] }
                ptcLoop reg now session_id caller_id call_id avr avid rest st
            | some (PErr.fatalE _) => { st with aborted := true }
        | RegOutcome.raiseValue e =>
            match st.lastSanitized with
            | none => { st with aborted := true }
            | some sc =>
                let st := { st with entries := st.entries ++
                  [HEntry.toolCall sc.id sc.name sc.args,
                   HEntry.toolResponse tc.id [("error", RVal.rstr e)]] }
                ptcLoop reg now session_id caller_id call_id avr avid rest st
        | RegOutcome.raiseKey e =>
            match st.lastSanitized with
            | none => { st with aborted := true }
            | some sc =>
                let st := { st with entries := st.entries ++
                  [HEntry.toolCall sc.id sc.name sc.args,
                   HEntry.toolResponse tc.id
                     [("error", RVal.rstr ("Missing required parameter: " ++ e))]] }
                ptcLoop reg now session_id caller_id call_id avr avid rest st
        | RegOutcome.raiseOther _ => { st with aborted := true }

/-- The arguments the first loop passes to `validate_account`: the
original arguments with `mobile_number` injected when a caller id is
known (`sanitized_args` is mutated identically there, so the recorded
call carries the same dict). -/
def first_va_args (tc : ToolCall) (caller_id : Option String) : Args :=
  if caller_id.isSome then aset tc.args "mobile_number" caller_id else tc.args

/-- Outcome of `_process_tool_calls`: `earlyReturn` is the `return` taken
when a ≤4-digit account fails validation (remaining calls abandoned);
`aborted` is an exception escaping to `process_message`. -/
structure PTCOut where
  entries : List HEntry
  sessions : SessionStore
  auth : AuthStore
  executed : List (String × Args)
  earlyReturn : Bool
  aborted : Bool

/-- `_process_tool_calls`: the first loop executes the first
`validate_account` call of the batch (whatever its position) under a
catch-all `try`, then `break`s; the second loop executes the rest,
skipping the processed call and skipping `validate_pin` when account
validation returned an (always non-empty, hence truthy) invalid result. -/
def process_tool_calls (reg : Registry) (now : Int) (sessions : SessionStore)
    (auth : AuthStore) (session_id : String) (tool_calls : List ToolCall) :
    PTCOut :=
  let (ctx, sessions0) := get_session_context sessions session_id now
  let caller_id := ctx.caller_id
  let call_id := ctx.call_id
  let runRest := fun (st : PTCState) (avr : Option RDict) (avid : Option String) =>
    let st' := ptcLoop reg now session_id caller_id call_id avr avid tool_calls st
    PTCOut.mk st'.entries st'.sessions st'.auth st'.executed false st'.aborted
  match tool_calls.find? (fun tc => tc.name = "validate_account") with
  | none =>
      runRest ⟨[], sessions0, auth, [], none, false⟩ none none
  | some tc =>
      -- both `function_args` and `sanitized_args` receive `mobile_number`
      let fargs := first_va_args tc caller_id
      let st0 : PTCState := ⟨[], sessions0, auth, [("validate_account", fargs)],
        none, false⟩
      match reg "validate_account" fargs with
      | RegOutcome.ok r =>
          let st1 := { st0 with entries :=
            [HEntry.toolCall tc.id "validate_account" fargs,
             HEntry.toolResponse tc.id r] }
          if !rtruthy (rget r "valid" (RVal.rbool false)) then
            match alookup fargs "account_number" with
            | none =>
                -- `len(None)` raises `TypeError`, caught by `except Exception`
                let st2 := { st1 with entries := st1.entries ++
                  [HEntry.toolResponse tc.id
                    [("error", RVal.rstr "TypeError: object of type NoneType has no len"),
                     ("valid", RVal.rbool false)]] }
                runRest st2 (some r) (some tc.id)
            | some none =>
                let st2 := { st1 with entries := st1.entries ++
                  [HEntry.toolResponse tc.id
                    [("error", RVal.rstr "TypeError: object of type NoneType has no len"),
                     ("valid", RVal.rbool false)]] }
                runRest st2 (some r) (some tc.id)
            | some (some last_digits) =>
                if last_digits.length ≤ 4 then
                  -- inform the user and abandon the remaining tool calls
                  PTCOut.mk
                    (st1.entries ++
                      [HEntry.assistant (noAccountEndingMsg last_digits)])
                    st1.sessions st1.auth st1.executed true false
                else runRest st1 (some r) (some tc.id)
          else runRest st1 (some r) (some tc.id)
      | RegOutcome.raiseValue e =>
          -- `except Exception`: only an error tool-response is appended;
          -- `account_validation_result` stays `None`
          let st1 := { st0 with entries :=
            [HEntry.toolResponse tc.id
              [("error", RVal.rstr e), ("valid", RVal.rbool false)]] }
          runRest st1 none none
      | RegOutcome.raiseKey e =>
          let st1 := { st0 with entries :=
            [HEntry.toolResponse tc.id
              [("error", RVal.rstr e), ("valid", RVal.rbool false)]] }
          runRest st1 none none
      | RegOutcome.raiseOther e =>
          let st1 := { st0 with entries :=
            [HEntry.toolResponse tc.id
              [("error", RVal.rstr e), ("valid", RVal.rbool false)]] }
          runRest st1 none none

/-! ### `_handle_pin_validation` (source lines 443–557) -/

def accountIdErrorMsg : String :=
  "I'm sorry, but there was an issue with your account identification. " ++
  "Please try again by providing the last 4 digits of your account."

def incorrectPinMsg : String :=
  "Sorry, the PIN you provided is incorrect. Please try again with the " ++
  "correct 4-digit PIN."

/-- The account-details reply template. -/
def accountDetailsMsg (formatted_balance currency account_status
    last_transaction : String) : String :=
  "Thank you for providing your PIN. Here are your account details:\n\n" ++
  "- **Current Balance:** " ++ formatted_balance ++ "\n" ++
  "- **Currency:** " ++ currency ++ "\n" ++
  "- **Account Status:** " ++ account_status ++ "\n" ++
  "- **Last Transaction Date:** " ++ last_transaction

/-- Result of `_handle_pin_validation`: appended entries, updated stores,
and the returned response (`none` = the function returned `None`). -/
structure HPVOut where
  entries : List HEntry
  sessions : SessionStore
  auth : AuthStore
  response : Option String

/-- `_handle_pin_validation`: validate the PIN through the authentication
service, write the masked tool call and the sanitized result into history,
and on success authenticate the session and fetch account details (again
with the PIN masked in the recorded call).  Service lookups that return
`None` and exceptions inside the `try` both make the function return
`None`, keeping whatever was already appended. -/
def handle_pin_validation (reg : Registry) (now : Int)
    (sessions : SessionStore) (auth : AuthStore)
    (authServiceOk accountServiceOk : Bool) (session_id : String)
    (account_number : String) (pin : String) : HPVOut :=
  if account_number = "" ∨ account_number.length < 10 then
    let sessions' := update_session_context sessions session_id
      { account_selected := some false
        selected_account := some none
        awaiting_pin := some false } now
    ⟨[HEntry.assistant accountIdErrorMsg], sessions', auth,
     some accountIdErrorMsg⟩
  else
    let (ctx, sessions1) := get_session_context sessions session_id now
    let caller := ctx.caller_id
    if !authServiceOk then ⟨[], sessions1, auth, none⟩
    else
      match reg "validate_pin"
        [("account_number", some account_number), ("pin", some pin),
         ("mobile_number", caller)] with
      | RegOutcome.ok pr =>
          let is_valid := rtruthy (rget pr "valid" (RVal.rbool false))
          let pinEntries : List HEntry :=
            [HEntry.toolCall "pin_validation_call" "validate_pin"
              [("account_number", some account_number), ("pin", some "****"),
               ("mobile_number", caller)],
             HEntry.toolResponse "pin_validation_call"
               [("valid", RVal.rbool is_valid),
                ("message", rget pr "message" (RVal.rstr ""))]]
          if is_valid then
            let auth1 := authenticate_session auth session_id
              (some account_number) now
            if !accountServiceOk then ⟨pinEntries, sessions1, auth1, none⟩
            else
              match reg "get_account_details"
                [("account_number", some account_number), ("pin", some pin),
                 ("mobile_number", caller)] with
              | RegOutcome.ok dr =>
                  -- the log line reads `details_result['status']` before
                  -- anything else is appended
                  match alookup dr "status" with
                  | none => ⟨pinEntries, sessions1, auth1, none⟩
                  | some sv =>
                      let detailEntries : List HEntry :=
                        [HEntry.toolCall "get_account_details_call"
                          "get_account_details"
                          [("account_number", some account_number),
                           ("pin", some "****"), ("mobile_number", caller)],
                         HEntry.toolResponse "get_account_details_call" dr]
                      let e4 := pinEntries ++ detailEntries
                      if risStr sv "success" then
                        match rget dr "data" RVal.rnull with
                        | RVal.rdict data =>
                            match alookup data "formatted_balance",
                              alookup data "currency",
                              alookup data "account_status",
                              alookup data "last_transaction" with
                            | some fb, some cu, some st, some lt =>
                                let response := accountDetailsMsg (rshow fb)
                                  (rshow cu) (rshow st) (rshow lt)
                                ⟨e4 ++ [HEntry.assistant response], sessions1,
                                 auth1, some response⟩
                            | _, _, _, _ => ⟨e4, sessions1, auth1, none⟩
                        | _ => ⟨e4, sessions1, auth1, none⟩
                      else ⟨e4, sessions1, auth1, none⟩
              | _ => ⟨pinEntries, sessions1, auth1, none⟩
          else
            ⟨pinEntries ++ [HEntry.assistant incorrectPinMsg], sessions1, auth,
             some incorrectPinMsg⟩
      | _ => ⟨[], sessions1, auth, none⟩

/-! ### The account-digits region of `_process_authentication_state`
(source lines 241–315): called once `extract_last_4_digits` found a
candidate and the session is not awaiting a PIN. -/

def needMobileMsg : String :=
  "I need your mobile number to proceed. Please contact customer support."

def serviceUnavailableMsg : String :=
  "Sorry, the account verification service is currently unavailable."

def lookupTroubleMsg : String :=
  "Sorry, I'm having trouble retrieving your account information. " ++
  "Please try again later."

def noAccountsForPhoneMsg : String :=
  "I'm sorry, but I couldn't find any accounts associated with your " ++
  "phone number."

def noMatchMsg (last_4_digits : String) : String :=
  "I'm sorry, but I couldn't find an account ending with " ++ last_4_digits ++
  " for this phone number. Please check and try again."

/-- The system guidance written when a suffix match selects an account:
it carries the account's masked form verbatim. -/
def confirmedAccountSysMsg (masked_account : String) : String :=
  "User confirmed account " ++ masked_account ++
  ". Now ask for 4-digit PIN to authenticate."

/-- The user-facing confirmation: it also carries the masked form. -/
def confirmedAccountReply (masked_account : String) : String :=
  "Thank you for confirming your account " ++ masked_account ++
  ". For security, please provide your 4-digit PIN."

/-- Result of the account-digits region. -/
structure ADOut where
  entries : List HEntry
  sessions : SessionStore
  response : Option String

/-- Source lines 241–315: given the extracted `last_4_digits`, look up the
caller's accounts through the mobile-auth service, store them, match by
suffix, and either select the matching account (asking for the PIN) or
report that no account ends in those digits.  Exceptions anywhere in the
`try` produce the generic lookup-trouble apology. -/
def process_account_digits (reg : Registry) (now : Int)
    (sessions : SessionStore) (hasMobileService : Bool) (session_id : String)
    (last_4_digits : String) : ADOut :=
  let (ctx, sessions1) := get_session_context sessions session_id now
  match ctx.caller_id with
  | none => ⟨[HEntry.assistant needMobileMsg], sessions1, some needMobileMsg⟩
  | some caller =>
      if !hasMobileService then
        ⟨[HEntry.assistant serviceUnavailableMsg], sessions1,
         some serviceUnavailableMsg⟩
      else
        match reg "get_accounts_by_mobile"
          [("mobile_number", some caller), ("call_id", some ctx.call_id)] with
        | RegOutcome.ok r =>
            let statusOk := risStr (rget r "status" RVal.rnull) "success"
            let acctsV := rget r "accounts" RVal.rnull
            if !statusOk || !rtruthy acctsV then
              ⟨[HEntry.assistant noAccountsForPhoneMsg], sessions1,
               some noAccountsForPhoneMsg⟩
            else
              match acctsV with
              | RVal.raccts accounts =>
                  let sessions2 :=
                    set_retrieved_accounts sessions1 session_id accounts now
                  match accounts.find?
                    (fun a => pyEndsWith a.account_number last_4_digits) with
                  | some account =>
                      if account.account_number.length < 10 then
                        -- `set_selected_account` raises; the broad handler
                        -- replies with the lookup-trouble apology
                        ⟨[HEntry.assistant lookupTroubleMsg], sessions2,
                         some lookupTroubleMsg⟩
                      else
                        let sessions3 := (set_selected_account sessions2
                          session_id account.account_number now).2
                        ⟨[HEntry.system
                            (confirmedAccountSysMsg account.masked_account),
                          HEntry.assistant
                            (confirmedAccountReply account.masked_account)],
                         sessions3,
                         some (confirmedAccountReply account.masked_account)⟩
                  | none =>
                      ⟨[HEntry.assistant (noMatchMsg last_4_digits)], sessions2,
                       some (noMatchMsg last_4_digits)⟩
              | _ =>
                  -- a truthy non-list `accounts` value makes the iteration
                  -- raise; the broad handler replies with the apology
                  ⟨[HEntry.assistant lookupTroubleMsg], sessions1,
                   some lookupTroubleMsg⟩
        | _ =>
            ⟨[HEntry.assistant lookupTroubleMsg], sessions1,
             some lookupTroubleMsg⟩

/-! ## Theorems -/

/-- `update_session_context` leaves the session bound to the patched
context (of the prior context when present, of a fresh one otherwise),
with `last_activity` bumped. -/
theorem update_session_context_lookup (store : SessionStore) (sid : String)
    (p : CtxPatch) (now : Int) :
    ∃ c, alookup (update_session_context store sid p now) sid =
      some { applyPatch c p with last_activity := now } := by
  unfold update_session_context
  cases h : alookup store sid with
  | none =>
      refine ⟨freshCtx sid none "web" now, ?_⟩
      simp only [h, initialize_session, alookup_aset_self, alookup_aset_self]
  | some c =>
      exact ⟨c, by simp only [h, alookup_aset_self]⟩

/-- C5: `setSelectedAccount` fails with a validation error exactly when the
account number is shorter than 10 characters, leaving the store untouched
on failure; on success the session's context records the account as
selected and awaits the PIN. -/
theorem C5_set_selected_account (store : SessionStore) (sid acc : String)
    (now : Int) :
    (acc.length < 10 →
      (set_selected_account store sid acc now).1 =
        Except.error ("Invalid account number format: " ++ acc) ∧
      (set_selected_account store sid acc now).2 = store) ∧
    (10 ≤ acc.length →
      (set_selected_account store sid acc now).1 = Except.ok () ∧
      ∃ ctx, alookup (set_selected_account store sid acc now).2 sid = some ctx ∧
        ctx.selected_account = some acc ∧ ctx.account_selected = true ∧
        ctx.awaiting_pin = true) := by
  constructor
  · intro h
    unfold set_selected_account
    rw [if_pos h]
    exact ⟨rfl, rfl⟩
  · intro h
    have h' : ¬ acc.length < 10 := not_lt.mpr h
    unfold set_selected_account
    rw [if_neg h']
    refine ⟨rfl, ?_⟩
    obtain ⟨c, hc⟩ := update_session_context_lookup store sid
      { selected_account := some (some acc)
        account_selected := some true
        awaiting_pin := some true } now
    exact ⟨_, hc, rfl, rfl, rfl⟩

/-- Witness for C5 at concrete inputs: a 4-character account number is
rejected with the store unchanged, a 13-character one is stored with both
flags raised. -/
theorem C5_set_selected_account_witness :
    ((set_selected_account [] "sess-1" "5678" 0).1 =
        Except.error "Invalid account number format: 5678" ∧
      (set_selected_account [] "sess-1" "5678" 0).2 = []) ∧
    ((set_selected_account [] "sess-1" "1311002345678" 0).1 = Except.ok () ∧
      ∃ ctx, alookup (set_selected_account [] "sess-1" "1311002345678" 0).2
          "sess-1" = some ctx ∧
        ctx.selected_account = some "1311002345678" ∧
        ctx.account_selected = true ∧ ctx.awaiting_pin = true) :=
  ⟨(C5_set_selected_account [] "sess-1" "5678" 0).1 (by decide),
   (C5_set_selected_account [] "sess-1" "1311002345678" 0).2 (by decide)⟩

/-- C6: `isAuthenticated` is true iff a record exists and at most 900
seconds have elapsed since its last activity; it is false for a session
with no record, and as an operation it hands the store back unchanged. -/
theorem C6_is_authenticated (store : AuthStore) (sid : String) (now : Int) :
    (is_authenticated store sid now = true ↔
      ∃ acc t, alookup store sid = some (acc, t) ∧ now - t ≤ 900) ∧
    (alookup store sid = none → is_authenticated store sid now = false) ∧
    (is_authenticated_op store sid now).2 = store := by
  refine ⟨?_, ?_, rfl⟩
  · unfold is_authenticated
    cases h : alookup store sid with
    | none => simp [h]
    | some p =>
        obtain ⟨acc, t⟩ := p
        simp only [h, decide_eq_true_eq]
        constructor
        · intro hle
          refine ⟨acc, t, rfl, ?_⟩
          have h900 : SESSION_TIMEOUT = 900 := by norm_num [SESSION_TIMEOUT]
          rw [h900] at hle
          exact hle
        · rintro ⟨acc', t', heq, hle⟩
          have hp := Option.some.inj heq
          cases hp
          have h900 : SESSION_TIMEOUT = 900 := by norm_num [SESSION_TIMEOUT]
          rw [h900]
          exact hle
  · intro h
    unfold is_authenticated
    simp [h]

/-- Witness for C6: a never-authenticated session is not authenticated,
and a fresh record within the timeout is. -/
theorem C6_is_authenticated_witness :
    is_authenticated [] "sess-1" 1000 = false ∧
    is_authenticated [("sess-2", (some "1311002345678", 100))] "sess-2" 1000 =
      true :=
  ⟨(C6_is_authenticated [] "sess-1" 1000).2.1 rfl,
   (C6_is_authenticated [("sess-2", (some "1311002345678", 100))] "sess-2"
      1000).1.mpr ⟨some "1311002345678", 100, rfl, by norm_num⟩⟩

/-- C9: one sweep removes exactly the records beyond the 900-second TTL
(and returns their ids), so a second sweep under the same clock finds
nothing and returns the empty list. -/
theorem C9_cleanup_idempotent (store : AuthStore) (now : Int) :
    (cleanup_expired_sessions (cleanup_expired_sessions store now).2 now).1 =
      [] ∧
    (∀ sid, sid ∈ (cleanup_expired_sessions store now).1 ↔
      ∃ acc t, (sid, (acc, t)) ∈ store ∧ 900 < now - t) := by
  constructor
  · have hnil : ((adelAll store
        ((store.filter (authExpired now)).map (·.1))).filter
        (authExpired now)) = [] := by
      rw [List.filter_eq_nil_iff]
      intro p hp
      unfold adelAll at hp
      simp only [List.mem_filter, decide_eq_true_eq] at hp
      obtain ⟨hmem, hnc⟩ := hp
      intro hexp
      exact hnc (by
        simp only [List.contains_iff_exists_mem_beq]
        exact ⟨p.1, List.mem_map.mpr ⟨p, List.mem_filter.mpr ⟨hmem, hexp⟩, rfl⟩,
          by simp⟩)
    unfold cleanup_expired_sessions
    simp only [hnil, List.map_nil]
  · intro sid
    unfold cleanup_expired_sessions
    simp only [List.mem_map, List.mem_filter]
    constructor
    · rintro ⟨⟨k, acc, t⟩, ⟨hmem, hexp⟩, rfl⟩
      refine ⟨acc, t, hmem, ?_⟩
      have := of_decide_eq_true hexp
      norm_num [SESSION_TIMEOUT] at this
      exact this
    · rintro ⟨acc, t, hmem, hlt⟩
      refine ⟨(sid, acc, t), ⟨hmem, ?_⟩, rfl⟩
      unfold authExpired
      rw [decide_eq_true_eq]
      norm_num [SESSION_TIMEOUT]
      exact hlt

/-- A session context arising from a direct `update_session_context` patch
that stores the empty string as the selected account. -/
def c1Store : SessionStore :=
  update_session_context [] "session-01" { selected_account := some (some "") }
    0

/-- C1 counterexample: `update_session_context` (a `SessionContextManager`
operation) can store `""` as the selected account — a stored value of
length 0 < 10 — and `get_selected_account` then returns it rather than
`None`: the read-side guard `if account_number and len(account_number) < 10`
lets the (falsy) empty string through, so a caller observes a selected
account shorter than 10 characters. -/
theorem C1_counterexample :
    ∃ ctx, alookup c1Store "session-01" = some ctx ∧
      ctx.selected_account = some "" ∧ ("" : String).length < 10 ∧
      (get_selected_account c1Store "session-01" 0).1 = some "" ∧
      (get_selected_account c1Store "session-01" 0).1 ≠ none := by
  refine ⟨_, rfl, ?_, by decide, ?_, ?_⟩ <;> decide

/-- C1 amended: the observed selected account is absent, the empty string,
or at least 10 characters long — `get_selected_account` never returns a
non-empty string shorter than 10 characters, whatever the store holds. -/
theorem C1_amended (store : SessionStore) (sid : String) (now : Int)
    (s : String) (h : (get_selected_account store sid now).1 = some s) :
    s = "" ∨ 10 ≤ s.length := by
  unfold get_selected_account at h
  rcases hsel : ((get_session_context store sid now).1).selected_account with
    _ | t
  · simp [hsel] at h
  · simp only [hsel] at h
    by_cases hc : t ≠ "" ∧ t.length < 10
    · simp [hc] at h
    · simp only [hc, if_false] at h
      cases h
      rcases not_and_or.mp hc with h1 | h2
      · exact Or.inl (not_not.mp h1)
      · exact Or.inr (not_lt.mp h2)

/-- Witness for C1's amended theorem at a concrete store holding a full
account number. -/
theorem C1_amended_witness :
    ("1311002345678" : String) = "" ∨ 10 ≤ ("1311002345678" : String).length :=
  C1_amended
    [("session-01",
      { freshCtx "session-01" none "web" 0 with
        selected_account := some "1311002345678" })]
    "session-01" 0 "1311002345678" (by decide)

/-- C10: the read accessors are not pure.  `get_session_context` on an
unknown session id creates and persists a fresh default context — caller
absent, all flags false, empty account list, no selection — and every
accessor built on it observes those defaults; `get_conversation` on an
unknown id creates and persists a conversation holding only the
system-prompt turn. -/
theorem C10_lazy_initialization (store : SessionStore) (conv : ConvStore)
    (sid sp : String) (now : Int) :
    (alookup store sid = none →
      (get_session_context store sid now).1 = freshCtx sid none "web" now ∧
      (get_session_context store sid now).2 =
        aset store sid (freshCtx sid none "web" now) ∧
      (get_caller_id store sid now).1 = none ∧
      (is_account_selected store sid now).1 = false ∧
      (is_awaiting_pin store sid now).1 = false ∧
      (has_accounts store sid now).1 = false ∧
      (get_selected_account store sid now).1 = none ∧
      (get_retrieved_accounts store sid now).1 = []) ∧
    (alookup conv sid = none →
      (get_conversation conv sp sid).1 = [HEntry.system sp] ∧
      (get_conversation conv sp sid).2 =
        aset conv sid [HEntry.system sp]) := by
  constructor
  · intro h
    unfold get_caller_id is_account_selected is_awaiting_pin has_accounts
      get_selected_account get_retrieved_accounts
    unfold get_session_context initialize_session
    simp [h, freshCtx]
  · intro h
    unfold get_conversation initial_prompt
    simp [h]

/-- Witness for C10 on the empty stores. -/
theorem C10_lazy_initialization_witness :
    (get_session_context [] "sess-1" 5).1 = freshCtx "sess-1" none "web" 5 ∧
    (get_session_context [] "sess-1" 5).2 =
      aset [] "sess-1" (freshCtx "sess-1" none "web" 5) ∧
    (get_caller_id [] "sess-1" 5).1 = none ∧
    (is_account_selected [] "sess-1" 5).1 = false ∧
    (is_awaiting_pin [] "sess-1" 5).1 = false ∧
    (has_accounts [] "sess-1" 5).1 = false ∧
    (get_selected_account [] "sess-1" 5).1 = none ∧
    (get_retrieved_accounts [] "sess-1" 5).1 = [] ∧
    (get_conversation [] "prompt" "sess-1").1 = [HEntry.system "prompt"] ∧
    (get_conversation [] "prompt" "sess-1").2 =
      aset [] "sess-1" [HEntry.system "prompt"] := by
  have h := C10_lazy_initialization [] [] "sess-1" "prompt" 5
  obtain ⟨h1, h2, h3, h4, h5, h6, h7, h8⟩ := h.1 rfl
  obtain ⟨h9, h10⟩ := h.2 rfl
  exact ⟨h1, h2, h3, h4, h5, h6, h7, h8, h9, h10⟩

/-- C8 counterexample: in `"code 9999 ending in 1234"` the explicitly
phrased group is `1234` and a different bare boundary-delimited group
`9999` is present; the claim says the explicit phrasing wins, but
`extract_last_4_digits` tries the bare `\b(\d{4})\b` scan first and
returns `9999`. -/
theorem C8_counterexample :
    explicit_scan "code 9999 ending in 1234" = some "1234" ∧
    bare_scan "code 9999 ending in 1234" = some "9999" ∧
    extract_last_4_digits "code 9999 ending in 1234" = some "9999" ∧
    extract_last_4_digits "code 9999 ending in 1234" ≠ some "1234" := by
  refine ⟨?_, ?_, ?_, ?_⟩ <;> decide

/-- C8 amended: precedence is the reverse of the claim — the bare
4-digit scan is pattern 1 and wins whenever it matches; the explicit
phrasings (`last four digits`, `ending in`, `ends with`,
`account <word>`) are consulted, in source order, only when no
boundary-delimited bare 4-digit group exists. -/
theorem C8_amended (message : String) :
    (∀ d, bare_scan message = some d →
      extract_last_4_digits message = some d) ∧
    (bare_scan message = none →
      extract_last_4_digits message = explicit_scan message) := by
  constructor
  · intro d h
    unfold extract_last_4_digits
    rw [h]
    rfl
  · intro h
    unfold extract_last_4_digits
    rw [h]
    rfl

/-- Witness for C8's amended theorem: a bare hit wins; with no bare hit
(five digits leave no `\b`-delimited 4-digit group) the explicit
`ending in` phrasing supplies the digits. -/
theorem C8_amended_witness :
    extract_last_4_digits "transfer code 9876 please" = some "9876" ∧
    extract_last_4_digits "ending in 12345" = explicit_scan "ending in 12345" ∧
    explicit_scan "ending in 12345" = some "1234" :=
  ⟨(C8_amended "transfer code 9876 please").1 "9876" (by decide),
   (C8_amended "ending in 12345").2 (by decide), by decide⟩

/-- Preserving a present key under `aset`. -/
theorem alookup_aset_isSome {α : Type} (l : List (String × α)) (k k' : String)
    (v : α) (h : (alookup l k).isSome) : (alookup (aset l k' v) k).isSome := by
  by_cases hk : k' = k
  · subst hk
    rw [alookup_aset_self]
    rfl
  · rw [alookup_aset_other l k' k v hk]
    exact h

/-- Preserving a present key under the extracted-value merge. -/
theorem alookup_foldl_aset_isSome {α : Type} (kvs : List (String × α))
    (k : String) :
    ∀ l : List (String × α), (alookup l k).isSome →
      (alookup (kvs.foldl (fun c kv => aset c kv.1 kv.2) l) k).isSome := by
  induction kvs with
  | nil => intro l h; exact h
  | cons kv rest ih =>
      intro l h
      exact ih (aset l kv.1 kv.2) (alookup_aset_isSome l k kv.1 kv.2 h)

/-- The empty flow loop just writes `executed_steps`. -/
theorem flowGo_nil (reg : FlowReg) (ctx : FCtx) (acc : List (String × StepRes))
    (ex : List String) :
    flowGo reg [] ctx acc ex = aset ctx "executed_steps" (FVal.fsteps ex) :=
  rfl

/-- Skip: a step whose `can_execute` check fails is passed over and the
loop continues with the next step. -/
theorem flowGo_skip (reg : FlowReg) (step : FlowStep) (rest : List FlowStep)
    (ctx : FCtx) (acc : List (String × StepRes)) (ex : List String)
    (h : step.can_execute ctx = false) :
    flowGo reg (step :: rest) ctx acc ex = flowGo reg rest ctx acc ex := by
  conv_lhs => rw [flowGo]
  simp only [h, Bool.false_eq_true, if_false]

/-- Halt on a raised tool call: record `status=error`, stop the loop, and
write `executed_steps` as accumulated so far. -/
theorem flowGo_error (reg : FlowReg) (step : FlowStep) (rest : List FlowStep)
    (ctx : FCtx) (acc : List (String × StepRes)) (ex : List String)
    (e : String) (h : step.can_execute ctx = true)
    (hreg : reg step.tool_name (step.build_args ctx) = Except.error e) :
    flowGo reg (step :: rest) ctx acc ex =
      aset (aset ctx "flow_results"
          (FVal.fresults (aset acc step.name (StepRes.error e))))
        "executed_steps" (FVal.fsteps ex) := by
  conv_lhs => rw [flowGo]
  simp only [h, if_true, hreg]

/-- Halt on a failed postcondition: record `status=validation_failed` and
stop the loop. -/
theorem flowGo_validation_failed (reg : FlowReg) (step : FlowStep)
    (rest : List FlowStep) (ctx : FCtx) (acc : List (String × StepRes))
    (ex : List String) (r : RDict) (h : step.can_execute ctx = true)
    (hreg : reg step.tool_name (step.build_args ctx) = Except.ok r)
    (hval : step.validate_result (step.build_args ctx) r = false) :
    flowGo reg (step :: rest) ctx acc ex =
      aset (aset ctx "flow_results"
          (FVal.fresults (aset acc step.name (StepRes.validation_failed r))))
        "executed_steps" (FVal.fsteps ex) := by
  conv_lhs => rw [flowGo]
  simp only [h, if_true, hreg, hval, Bool.false_eq_true, if_false]

/-- A successful step records `status=success`, merges the extracted
values into the context, appends its name to the executed list, and the
loop continues with the remaining steps. -/
theorem flowGo_success (reg : FlowReg) (step : FlowStep)
    (rest : List FlowStep) (ctx : FCtx) (acc : List (String × StepRes))
    (ex : List String) (r : RDict) (h : step.can_execute ctx = true)
    (hreg : reg step.tool_name (step.build_args ctx) = Except.ok r)
    (hval : step.validate_result (step.build_args ctx) r = true) :
    flowGo reg (step :: rest) ctx acc ex =
      flowGo reg rest
        ((step.process_result (step.build_args ctx) r).foldl
          (fun c kv => aset c kv.1 kv.2)
          (aset ctx "flow_results"
            (FVal.fresults (aset acc step.name (StepRes.success r)))))
        (aset acc step.name (StepRes.success r)) (ex ++ [step.name]) := by
  conv_lhs => rw [flowGo]
  simp only [h, if_true, hreg, hval]

/-- The flow loop always delivers both reserved keys, provided
`flow_results` was seeded (as `execute` does). -/
theorem flowGo_reserved_keys (reg : FlowReg) (steps : List FlowStep) :
    ∀ (ctx : FCtx) (acc : List (String × StepRes)) (ex : List String),
      (alookup ctx "flow_results").isSome →
      (alookup (flowGo reg steps ctx acc ex) "executed_steps").isSome ∧
      (alookup (flowGo reg steps ctx acc ex) "flow_results").isSome := by
  induction steps with
  | nil =>
      intro ctx acc ex h
      rw [flowGo_nil]
      constructor
      · rw [alookup_aset_self]; rfl
      · exact alookup_aset_isSome ctx "flow_results" "executed_steps"
          (FVal.fsteps ex) h
  | cons step rest ih =>
      intro ctx acc ex h
      by_cases hce : step.can_execute ctx = true
      · cases hreg : reg step.tool_name (step.build_args ctx) with
        | error e =>
            rw [flowGo_error reg step rest ctx acc ex e hce hreg]
            constructor
            · rw [alookup_aset_self]; rfl
            · exact alookup_aset_isSome _ "flow_results" "executed_steps" _
                (by rw [alookup_aset_self]; rfl)
        | ok r =>
            by_cases hval : step.validate_result (step.build_args ctx) r = true
            · rw [flowGo_success reg step rest ctx acc ex r hce hreg hval]
              exact ih _ _ _ (alookup_foldl_aset_isSome _ "flow_results" _
                (by rw [alookup_aset_self]; rfl))
            · rw [flowGo_validation_failed reg step rest ctx acc ex r hce hreg
                (Bool.not_eq_true _ ▸ hval)]
              constructor
              · rw [alookup_aset_self]; rfl
              · exact alookup_aset_isSome _ "flow_results" "executed_steps" _
                  (by rw [alookup_aset_self]; rfl)
      · rw [flowGo_skip reg step rest ctx acc ex
          (Bool.not_eq_true _ ▸ hce)]
        exact ih ctx acc ex h

/-- C7: the flow loop visits steps in declaration order; a step whose
`can_execute` (required-argument or precondition) check fails is skipped
and the loop continues; a raised tool call records `status=error` and
halts; a failed postcondition records `status=validation_failed` and
halts; a successful step records `status=success`, merges the extracted
values into the context, and appends its name to `executed_steps`; and the
context `execute` returns always carries both `executed_steps` and
`flow_results`. -/
theorem C7_service_flow_execute (reg : FlowReg) (flow : ServiceFlow)
    (initial : FCtx) (step : FlowStep) (rest : List FlowStep) (ctx : FCtx)
    (acc : List (String × StepRes)) (ex : List String) :
    (step.can_execute ctx = false →
      flowGo reg (step :: rest) ctx acc ex = flowGo reg rest ctx acc ex) ∧
    (∀ e, step.can_execute ctx = true →
      reg step.tool_name (step.build_args ctx) = Except.error e →
      flowGo reg (step :: rest) ctx acc ex =
        aset (aset ctx "flow_results"
            (FVal.fresults (aset acc step.name (StepRes.error e))))
          "executed_steps" (FVal.fsteps ex)) ∧
    (∀ r, step.can_execute ctx = true →
      reg step.tool_name (step.build_args ctx) = Except.ok r →
      step.validate_result (step.build_args ctx) r = false →
      flowGo reg (step :: rest) ctx acc ex =
        aset (aset ctx "flow_results"
            (FVal.fresults (aset acc step.name (StepRes.validation_failed r))))
          "executed_steps" (FVal.fsteps ex)) ∧
    (∀ r, step.can_execute ctx = true →
      reg step.tool_name (step.build_args ctx) = Except.ok r →
      step.validate_result (step.build_args ctx) r = true →
      flowGo reg (step :: rest) ctx acc ex =
        flowGo reg rest
          ((step.process_result (step.build_args ctx) r).foldl
            (fun c kv => aset c kv.1 kv.2)
            (aset ctx "flow_results"
              (FVal.fresults (aset acc step.name (StepRes.success r)))))
          (aset acc step.name (StepRes.success r)) (ex ++ [step.name])) ∧
    ((alookup (flow.execute reg initial) "executed_steps").isSome ∧
      (alookup (flow.execute reg initial) "flow_results").isSome) := by
  refine ⟨?_, ?_, ?_, ?_, ?_⟩
  · intro h
    exact flowGo_skip reg step rest ctx acc ex h
  · intro e h hreg
    exact flowGo_error reg step rest ctx acc ex e h hreg
  · intro r h hreg hval
    exact flowGo_validation_failed reg step rest ctx acc ex r h hreg hval
  · intro r h hreg hval
    exact flowGo_success reg step rest ctx acc ex r h hreg hval
  · exact flowGo_reserved_keys reg flow.steps _ [] []
      (by rw [alookup_aset_self]; rfl)

/-- Witness step whose required argument is absent from the context. -/
def wSkipStep : FlowStep :=
  { name := "s_skip", tool_name := "t_ok", required_args := ["missing"] }

/-- Witness step that succeeds and extracts a value. -/
def wOkStep : FlowStep :=
  { name := "s_ok", tool_name := "t_ok", required_args := []
    result_processor :=
      some (fun _ r => [("picked", FVal.fr (rget r "valid" RVal.rnull))]) }

/-- Witness step whose postcondition rejects every result. -/
def wFailStep : FlowStep :=
  { name := "s_fail", tool_name := "t_ok", required_args := []
    postcondition := some (fun _ _ => false) }

/-- Witness step whose tool raises. -/
def wErrStep : FlowStep :=
  { name := "s_err", tool_name := "t_err", required_args := [] }

/-- Witness registry: `t_ok` answers, anything else raises. -/
def wReg : FlowReg := fun n _ =>
  if n = "t_ok" then Except.ok [("valid", RVal.rbool true)]
  else Except.error "boom"

/-- Witness for C7 at concrete steps: one skipped step, one raising step,
one postcondition failure, one success, and the reserved keys of a
concrete one-step flow. -/
theorem C7_service_flow_execute_witness :
    (flowGo wReg [wSkipStep] [] [] [] = flowGo wReg [] [] [] []) ∧
    (flowGo wReg [wErrStep] [] [] [] =
      aset (aset [] "flow_results"
          (FVal.fresults (aset [] "s_err" (StepRes.error "boom"))))
        "executed_steps" (FVal.fsteps [])) ∧
    (flowGo wReg [wFailStep] [] [] [] =
      aset (aset [] "flow_results"
          (FVal.fresults (aset [] "s_fail"
            (StepRes.validation_failed [("valid", RVal.rbool true)]))))
        "executed_steps" (FVal.fsteps [])) ∧
    (flowGo wReg [wOkStep] [] [] [] =
      flowGo wReg []
        ((wOkStep.process_result (wOkStep.build_args [])
            [("valid", RVal.rbool true)]).foldl
          (fun c kv => aset c kv.1 kv.2)
          (aset [] "flow_results"
            (FVal.fresults (aset [] "s_ok"
              (StepRes.success [("valid", RVal.rbool true)])))))
        (aset [] "s_ok" (StepRes.success [("valid", RVal.rbool true)]))
        ([] ++ ["s_ok"])) ∧
    ((alookup ((ServiceFlow.mk "w" "witness flow" [wOkStep]).execute wReg [])
        "executed_steps").isSome ∧
      (alookup ((ServiceFlow.mk "w" "witness flow" [wOkStep]).execute wReg [])
        "flow_results").isSome) :=
  ⟨(C7_service_flow_execute wReg (ServiceFlow.mk "w" "witness flow" [wOkStep])
      [] wSkipStep [] [] [] []).1 rfl,
   (C7_service_flow_execute wReg (ServiceFlow.mk "w" "witness flow" [wOkStep])
      [] wErrStep [] [] [] []).2.1 "boom" rfl rfl,
   (C7_service_flow_execute wReg (ServiceFlow.mk "w" "witness flow" [wOkStep])
      [] wFailStep [] [] [] []).2.2.1 [("valid", RVal.rbool true)] rfl rfl rfl,
   (C7_service_flow_execute wReg (ServiceFlow.mk "w" "witness flow" [wOkStep])
      [] wOkStep [] [] [] []).2.2.2.1 [("valid", RVal.rbool true)] rfl rfl rfl,
   (C7_service_flow_execute wReg (ServiceFlow.mk "w" "witness flow" [wOkStep])
      [] wOkStep [] [] [] []).2.2.2.2⟩

/-- `needle` occurs as a contiguous run of `hay`. -/
def listInfix (needle : List Char) : List Char → Bool
  | [] => needle.isEmpty
  | a :: t => needle.isPrefixOf (a :: t) || listInfix needle t

/-- Python `needle in hay` on strings. -/
def strContains (hay needle : String) : Bool :=
  listInfix needle.data hay.data

/-- The session store, registry and account list of the C4 scenario:
one caller with one discovered account. -/
def c4Account : Account :=
  { account_number := "1311002345678", masked_account := "131100***5678" }

def c4Store : SessionStore :=
  [("sess-0001",
    { freshCtx "sess-0001" none "web" 0 with caller_id := some "01712345678" })]

def c4Reg : Registry := fun n _ =>
  if n = "get_accounts_by_mobile" then
    RegOutcome.ok
      [("status", RVal.rstr "success"),
       ("message", RVal.rstr "Found 1 accounts"),
       ("accounts", RVal.raccts [c4Account])]
  else RegOutcome.raiseValue "Tool not found"

/-- C4 counterexample: when the caller's digits match an account, the
account-digits path writes that candidate account's masked form verbatim
into the conversation history — in the system guidance and in the
assistant reply — contradicting the claim that masked forms are never
written and only a count and a flag are. -/
theorem C4_counterexample :
    (process_account_digits c4Reg 0 c4Store true "sess-0001" "5678").entries =
      [HEntry.system (confirmedAccountSysMsg "131100***5678"),
       HEntry.assistant (confirmedAccountReply "131100***5678")] ∧
    strContains (confirmedAccountSysMsg "131100***5678") "131100***5678" =
      true ∧
    "131100***5678" ∈ [c4Account].map (·.masked_account) := by
  refine ⟨rfl, by decide, by decide⟩

/-- C4 amended: the tool-result path for `get_accounts_by_mobile` writes
only the lookup status, its message, a boolean accounts-found flag and the
account count into history — the appended entries are invariant under
replacing the discovered account list by any other list of the same
length, so no account number or masked form from it can be written.  But
when a suffix match selects an account, the account-digits path writes the
matched account's masked form verbatim into the system guidance and the
assistant reply. -/
theorem C4_amended :
    (∀ (reg : Registry) (now : Int) (sessions : SessionStore)
        (auth : AuthStore) (sid tcid : String) (args : Args) (sv mv : RVal)
        (l1 l2 : List Account), l1.length = l2.length →
      (process_tool_result reg now sessions auth sid "get_accounts_by_mobile"
        args [("status", sv), ("message", mv), ("accounts", RVal.raccts l1)]
        tcid).entries =
      (process_tool_result reg now sessions auth sid "get_accounts_by_mobile"
        args [("status", sv), ("message", mv), ("accounts", RVal.raccts l2)]
        tcid).entries) ∧
    (∀ (reg : Registry) (now : Int) (sessions : SessionStore)
        (sid digits : String) (ctx : SessionCtx) (m : String) (mv : RVal)
        (l : List Account) (a : Account),
      alookup sessions sid = some ctx → ctx.caller_id = some m →
      reg "get_accounts_by_mobile"
          [("mobile_number", some m), ("call_id", some ctx.call_id)] =
        RegOutcome.ok
          [("status", RVal.rstr "success"), ("message", mv),
           ("accounts", RVal.raccts l)] →
      l.find? (fun x => pyEndsWith x.account_number digits) = some a →
      10 ≤ a.account_number.length →
      (process_account_digits reg now sessions true sid digits).entries =
        [HEntry.system (confirmedAccountSysMsg a.masked_account),
         HEntry.assistant (confirmedAccountReply a.masked_account)]) := by
  constructor
  · intro reg now sessions auth sid tcid args sv mv l1 l2 hlen
    by_cases h : risStr sv "success" = true <;>
      simp [process_tool_result, alookup, rget, rlen, h, hlen]
  · intro reg now sessions sid digits ctx m mv l a h1 h2 h3 h4 h5
    have hne : l.isEmpty = false := by
      cases l with
      | nil => simp [List.find?] at h4
      | cons x t => rfl
    have hlt : ¬ a.account_number.length < 10 := not_lt.mpr h5
    have hlne : l ≠ [] := by
      cases l with
      | nil => simp at hne
      | cons x t => simp
    unfold process_account_digits get_session_context
    simp only [h1, h2, h3, Bool.not_true, Bool.false_eq_true, if_false,
      rget, alookup, risStr, rtruthy, hne, if_true, h4, hlt]
    simp [hlne, h4, hlt]

/-- Witness for C4's amended theorem: swapping the (single) discovered
account for a different one leaves the sanitized history unchanged, and in
the concrete matching scenario exactly the masked-form messages are
appended. -/
theorem C4_amended_witness :
    ((process_tool_result c4Reg 0 c4Store [] "sess-0001"
        "get_accounts_by_mobile" []
        [("status", RVal.rstr "success"),
         ("message", RVal.rstr "Found 1 accounts"),
         ("accounts", RVal.raccts [c4Account])] "call_7").entries =
      (process_tool_result c4Reg 0 c4Store [] "sess-0001"
        "get_accounts_by_mobile" []
        [("status", RVal.rstr "success"),
         ("message", RVal.rstr "Found 1 accounts"),
         ("accounts",
          RVal.raccts [{ account_number := "9999988888777"
                         masked_account := "99999***8777" }])]
        "call_7").entries) ∧
    (process_account_digits c4Reg 0 c4Store true "sess-0001" "5678").entries =
      [HEntry.system (confirmedAccountSysMsg "131100***5678"),
       HEntry.assistant (confirmedAccountReply "131100***5678")] :=
  ⟨C4_amended.1 c4Reg 0 c4Store [] "sess-0001" "call_7" []
      (RVal.rstr "success") (RVal.rstr "Found 1 accounts") [c4Account]
      [{ account_number := "9999988888777", masked_account := "99999***8777" }]
      rfl,
   C4_amended.2 c4Reg 0 c4Store "sess-0001" "5678"
      { freshCtx "sess-0001" none "web" 0 with caller_id := some "01712345678" }
      "01712345678" (RVal.rstr "Found 1 accounts") [c4Account] c4Account
      rfl rfl rfl rfl (by decide)⟩

/-! ### PIN masking (claim C3) -/

/-- A history entry is pin-safe when, if it is a tool call at all, its
`pin` argument is either absent or the masked placeholder. -/
def pinSafeEntry (e : HEntry) : Bool :=
  match e with
  | HEntry.toolCall _ _ args =>
      match alookup args "pin" with
      | none => true
      | some v => v = some "****"
  | _ => true

/-- A history entry is pin-masked when, if it is a tool call, it carries
the literal `****` as its `pin` argument. -/
def pinMaskedEntry (e : HEntry) : Bool :=
  match e with
  | HEntry.toolCall _ _ args => alookup args "pin" = some (some "****")
  | _ => true

/-- Entries that are not tool calls at all. -/
def notToolCallEntry (e : HEntry) : Bool :=
  match e with
  | HEntry.toolCall _ _ _ => false
  | _ => true

theorem pinSafe_toolResponse (i : String) (c : RDict) :
    pinSafeEntry (HEntry.toolResponse i c) = true := rfl

theorem pinSafe_assistant (s : String) :
    pinSafeEntry (HEntry.assistant s) = true := rfl

theorem pinSafe_of_notToolCall (e : HEntry) (h : notToolCallEntry e = true) :
    pinSafeEntry e = true := by
  cases e <;> simp_all [pinSafeEntry, notToolCallEntry]

theorem all_pinSafe_of_all_notToolCall (l : List HEntry)
    (h : l.all notToolCallEntry = true) : l.all pinSafeEntry = true := by
  rw [List.all_eq_true] at h ⊢
  intro e he
  exact pinSafe_of_notToolCall e (h e he)

/-- `_process_tool_result` never appends a tool-call entry (only tool
responses and system guidance). -/
theorem ptr_entries_notToolCall (reg : Registry) (now : Int)
    (sessions : SessionStore) (auth : AuthStore) (sid name : String)
    (args : Args) (result : RDict) (tcid : String) :
    (process_tool_result reg now sessions auth sid name args result
      tcid).entries.all notToolCallEntry = true := by
  unfold process_tool_result
  dsimp only
  repeat' split
  all_goals rfl

/-- The `pin` argument of the second loop's sanitized call: `****` when a
pin was supplied, absent otherwise — the injected bookkeeping keys do not
disturb it. -/
theorem loop_sanitized_args_pin (tc : ToolCall) (sid : String)
    (caller : Option String) (cid : String) :
    alookup (loop_sanitized_args tc sid caller cid) "pin" =
      (if (alookup tc.args "pin").isSome then some (some "****") else none) := by
  have hca : ("call_id" : String) ≠ "pin" := by decide
  have hse : ("session_id" : String) ≠ "pin" := by decide
  have hmo : ("mobile_number" : String) ≠ "pin" := by decide
  unfold loop_sanitized_args
  by_cases hp : (alookup tc.args "pin").isSome
  · simp only [hp, if_true]
    cases hb1 : injectIds tc <;> cases hb2 : injectMobile tc caller <;>
      simp only [hb1, hb2, Bool.false_eq_true, if_true, if_false,
        alookup_aset_other _ _ _ _ hmo, alookup_aset_other _ _ _ _ hse,
        alookup_aset_other _ _ _ _ hca, alookup_aset_self]
  · have hnone : alookup tc.args "pin" = none :=
      Option.not_isSome_iff_eq_none.mp hp
    simp only [hp, Bool.false_eq_true, if_false]
    cases hb1 : injectIds tc <;> cases hb2 : injectMobile tc caller <;>
      simp only [hb1, hb2, Bool.false_eq_true, if_true, if_false,
        alookup_aset_other _ _ _ _ hmo, alookup_aset_other _ _ _ _ hse,
        alookup_aset_other _ _ _ _ hca, hnone]

/-- Hence every sanitized call the second loop records is pin-safe. -/
theorem loop_sanitized_pinSafe (i n : String) (tc : ToolCall) (sid : String)
    (caller : Option String) (cid : String) :
    pinSafeEntry
      (HEntry.toolCall i n (loop_sanitized_args tc sid caller cid)) = true := by
  simp only [pinSafeEntry]
  rw [loop_sanitized_args_pin]
  by_cases hp : (alookup tc.args "pin").isSome
  · simp [hp]
  · simp [hp]

/-- Every tool-call entry `_handle_pin_validation` appends carries the
literal `****` as its `pin` argument, whatever the services answer. -/
theorem hpv_entries_pinMasked (reg : Registry) (now : Int)
    (sessions : SessionStore) (auth : AuthStore) (aOk cOk : Bool)
    (sid acc pin : String) :
    (handle_pin_validation reg now sessions auth aOk cOk sid acc
      pin).entries.all pinMaskedEntry = true := by
  unfold handle_pin_validation
  dsimp only
  repeat' split
  all_goals rfl

/-- Invariant of the second tool-call loop: starting from pin-safe
appended entries (and a pin-safe remembered sanitized call), everything
the loop appends stays pin-safe. -/
theorem ptcLoop_entries_pinSafe (reg : Registry) (now : Int) (sid : String)
    (caller : Option String) (cid : String) (avr : Option RDict)
    (avid : Option String) :
    ∀ (l : List ToolCall) (st : PTCState),
      st.entries.all pinSafeEntry = true →
      (∀ sc, st.lastSanitized = some sc →
        pinSafeEntry (HEntry.toolCall sc.id sc.name sc.args) = true) →
      (ptcLoop reg now sid caller cid avr avid l st).entries.all pinSafeEntry =
        true := by
  intro l
  induction l with
  | nil => intro st h _; exact h
  | cons tc rest ih =>
      intro st hst hsan
      have hsargs := loop_sanitized_pinSafe tc.id tc.name tc sid caller cid
      rw [ptcLoop.eq_def]
      dsimp only
      split
      · exact hst
      split
      · exact ih st hst hsan
      split
      · exact ih st hst hsan
      split
      · -- RegOutcome.ok
        next r hreg =>
          have hptr := all_pinSafe_of_all_notToolCall _
            (ptr_entries_notToolCall reg now st.sessions st.auth sid
              tc.name (loop_full_args tc sid caller cid) r tc.id)
          split
          · refine ih _ ?_ ?_
            · rw [List.all_append, List.all_append]
              simp [hst, hsargs, hptr]
            · intro sc hsc
              simp only [Option.some.injEq] at hsc
              cases hsc
              exact hsargs
          · next e heq =>
              refine ih _ ?_ ?_
              · rw [List.all_append, List.all_append, List.all_append]
                simp [hst, hsargs, hptr, pinSafe_toolResponse]
              · intro sc hsc
                simp only [Option.some.injEq] at hsc
                cases hsc
                exact hsargs
          · next e heq =>
              rw [List.all_append, List.all_append]
              simp [hst, hsargs, hptr]
      · -- RegOutcome.raiseValue
        next e =>
          split
          · exact hst
          · next sc hls =>
              refine ih _ ?_ ?_
              · rw [List.all_append]
                simp [hst, hsan sc hls, pinSafe_toolResponse]
              · intro sc' hsc'
                exact hsan sc' hsc'
      · -- RegOutcome.raiseKey
        next e =>
          split
          · exact hst
          · next sc hls =>
              refine ih _ ?_ ?_
              · rw [List.all_append]
                simp [hst, hsan sc hls, pinSafe_toolResponse]
              · intro sc' hsc'
                exact hsan sc' hsc'
      · -- RegOutcome.raiseOther
        exact hst

theorem first_va_args_pin (tc : ToolCall) (caller : Option String)
    (h : alookup tc.args "pin" = none) :
    alookup (first_va_args tc caller) "pin" = none := by
  unfold first_va_args
  split
  · rw [alookup_aset_other _ _ _ _
      (by decide : ("mobile_number" : String) ≠ "pin")]
    exact h
  · exact h

theorem pinSafe_toolCall_noPin (i n : String) (args : Args)
    (h : alookup args "pin" = none) :
    pinSafeEntry (HEntry.toolCall i n args) = true := by
  simp [pinSafeEntry, h]

/-- Everything `_process_tool_calls` writes into history is pin-safe,
provided the `validate_account` calls of the batch carry no `pin` argument
(the repository's `validate_account` tool schema has none): the first loop
copies that call's arguments unmasked, the second loop masks any `pin`
before recording. -/
theorem ptc_entries_pinSafe (reg : Registry) (now : Int)
    (sessions : SessionStore) (auth : AuthStore) (sid : String)
    (batch : List ToolCall)
    (hva : ∀ tc ∈ batch, tc.name = "validate_account" →
      alookup tc.args "pin" = none) :
    (process_tool_calls reg now sessions auth sid
      batch).entries.all pinSafeEntry = true := by
  unfold process_tool_calls
  rcases hgs : get_session_context sessions sid now with ⟨ctx, sessions0⟩
  dsimp only
  cases hfind : batch.find? (fun tc => tc.name = "validate_account") with
  | none =>
      exact ptcLoop_entries_pinSafe reg now sid ctx.caller_id ctx.call_id
        none none batch ⟨[], sessions0, auth, [], none, false⟩ rfl
        (fun sc h => by cases h)
  | some tc =>
      have htcmem : tc ∈ batch := List.mem_of_find?_eq_some hfind
      have htcname : tc.name = "validate_account" := by
        have := List.find?_some hfind
        simpa using this
      have hpin0 : alookup tc.args "pin" = none := hva tc htcmem htcname
      have hfva : alookup (first_va_args tc ctx.caller_id) "pin" = none :=
        first_va_args_pin tc ctx.caller_id hpin0
      have hcall : pinSafeEntry
          (HEntry.toolCall tc.id "validate_account"
            (first_va_args tc ctx.caller_id)) = true :=
        pinSafe_toolCall_noPin _ _ _ hfva
      dsimp only
      split
      · -- RegOutcome.ok
        next r hreg =>
          split
          · -- result invalid
            split
            · -- account_number key absent: extra error response, loop on
              exact ptcLoop_entries_pinSafe reg now sid ctx.caller_id
                ctx.call_id (some r) (some tc.id) batch _
                (by simp [hcall, pinSafe_toolResponse]) (fun sc h => by cases h)
            · -- account_number JSON null
              exact ptcLoop_entries_pinSafe reg now sid ctx.caller_id
                ctx.call_id (some r) (some tc.id) batch _
                (by simp [hcall, pinSafe_toolResponse]) (fun sc h => by cases h)
            · -- a string account_number
              next last_digits heq2 =>
                split
                · -- short: early return with the apology appended
                  simp [List.all_append, hcall, pinSafe_toolResponse,
                    pinSafe_assistant]
                · -- long: loop on
                  exact ptcLoop_entries_pinSafe reg now sid ctx.caller_id
                    ctx.call_id (some r) (some tc.id) batch _
                    (by simp [hcall, pinSafe_toolResponse])
                    (fun sc h => by cases h)
          · -- result valid: loop on
            exact ptcLoop_entries_pinSafe reg now sid ctx.caller_id
              ctx.call_id (some r) (some tc.id) batch _
              (by simp [hcall, pinSafe_toolResponse]) (fun sc h => by cases h)
      · -- raiseValue
        exact ptcLoop_entries_pinSafe reg now sid ctx.caller_id ctx.call_id
          none none batch _ (by simp [pinSafe_toolResponse])
          (fun sc h => by cases h)
      · -- raiseKey
        exact ptcLoop_entries_pinSafe reg now sid ctx.caller_id ctx.call_id
          none none batch _ (by simp [pinSafe_toolResponse])
          (fun sc h => by cases h)
      · -- raiseOther
        exact ptcLoop_entries_pinSafe reg now sid ctx.caller_id ctx.call_id
          none none batch _ (by simp [pinSafe_toolResponse])
          (fun sc h => by cases h)

/-! ### The awaiting-PIN turn of `_process_authentication_state`
(source lines 210–239): the selected account is fetched, the PIN is
validated through `_handle_pin_validation`, and when that returns `None`
the persisted reply falls back to `_simple_pin_check`'s debug string —
which interpolates both the stored expected PIN and the caller's raw
PIN. -/

def sessionErrorMsg : String :=
  "There was an error with your session. Please start over with your " ++
  "account number."

/-- The re-prompt used when `_simple_pin_check` has nothing to say. -/
def incorrectPinRetryMsg : String :=
  "The PIN you entered is incorrect. Please try again with the correct " ++
  "4-digit PIN."

/-- `f"DEBUG: PIN should be valid! Expected: {expected_pin}, got: {pin}"`. -/
def debugPinValidMsg (expected pin : String) : String :=
  ("DEBUG: PIN should be valid! Expected: " ++ expected ++ ", got: ") ++ pin

/-- `f"DEBUG: PIN incorrect. Expected: {expected_pin}, got: {pin}"`. -/
def debugPinIncorrectMsg (expected pin : String) : String :=
  ("DEBUG: PIN incorrect. Expected: " ++ expected ++ ", got: ") ++ pin

/-- `_simple_pin_check` (source lines 421–441): find the selected account
among the retrieved ones and report the comparison of its stored `pin`
(absent on real data, rendered `None`) with the supplied one. -/
def simple_pin_check (accounts : List Account) (account_number pin : String) :
    Option String :=
  match accounts.find? (fun a => a.account_number = account_number) with
  | none => none
  | some a =>
      match a.pin with
      | some expected =>
          if expected = pin then some (debugPinValidMsg expected pin)
          else some (debugPinIncorrectMsg expected pin)
      | none => some (debugPinIncorrectMsg "None" pin)

/-- Python `a or dflt` on an optional string (`None` and `""` are falsy). -/
def pyOrStr (a : Option String) (dflt : String) : String :=
  match a with
  | some s => if s = "" then dflt else s
  | none => dflt

structure PinTurnOut where
  entries : List HEntry
  sessions : SessionStore
  auth : AuthStore
  response : Option String

/-- Source lines 210–239, given the PIN already extracted from the
message: fetch the selected account (`if not account_number` also catches
the empty string), run `_handle_pin_validation`, and when it returns
`None` persist `_simple_pin_check`'s debug string — or the generic
re-prompt — as the assistant reply. -/
def process_pin_turn (reg : Registry) (now : Int) (sessions : SessionStore)
    (auth : AuthStore) (authServiceOk accountServiceOk : Bool)
    (session_id : String) (pin : String) : PinTurnOut :=
  let (sel, sessions1) := get_selected_account sessions session_id now
  match sel with
  | none =>
      ⟨[HEntry.assistant sessionErrorMsg], sessions1, auth,
       some sessionErrorMsg⟩
  | some account_number =>
      if account_number = "" then
        ⟨[HEntry.assistant sessionErrorMsg], sessions1, auth,
         some sessionErrorMsg⟩
      else
        let hpv := handle_pin_validation reg now sessions1 auth authServiceOk
          accountServiceOk session_id account_number pin
        match hpv.response with
        | some resp => ⟨hpv.entries, hpv.sessions, hpv.auth, some resp⟩
        | none =>
            let (accounts, sessions2) :=
              get_retrieved_accounts hpv.sessions session_id now
            let response :=
              pyOrStr (simple_pin_check accounts account_number pin)
                incorrectPinRetryMsg
            ⟨hpv.entries ++ [HEntry.assistant response], sessions2, hpv.auth,
             some response⟩

theorem str_data_append (a b : String) : (a ++ b).data = a.data ++ b.data :=
  rfl

theorem isPrefixOf_self (l : List Char) : l.isPrefixOf l = true := by
  induction l with
  | nil => rfl
  | cons c t ih => simp [List.isPrefixOf, ih]

theorem listInfix_suffix (pre needle : List Char) :
    listInfix needle (pre ++ needle) = true := by
  induction pre with
  | nil =>
      cases needle with
      | nil => rfl
      | cons c t => simp [listInfix, isPrefixOf_self]
  | cons a pre ih => simp [listInfix, ih]

/-- A string built as `x ++ p` contains `p`. -/
theorem strContains_append_right (x p : String) :
    strContains (x ++ p) p = true := by
  unfold strContains
  rw [str_data_append]
  exact listInfix_suffix x.data p.data

theorem debugPinValidMsg_contains (e p : String) :
    strContains (debugPinValidMsg e p) p = true :=
  strContains_append_right _ p

theorem debugPinIncorrectMsg_contains (e p : String) :
    strContains (debugPinIncorrectMsg e p) p = true :=
  strContains_append_right _ p

theorem debugPinValidMsg_ne_empty (e p : String) :
    debugPinValidMsg e p ≠ "" := by
  intro h
  have hd := congrArg String.data h
  simp only [debugPinValidMsg, str_data_append, List.append_eq_nil] at hd
  exact absurd hd.1.1.1 (by decide)

theorem debugPinIncorrectMsg_ne_empty (e p : String) :
    debugPinIncorrectMsg e p ≠ "" := by
  intro h
  have hd := congrArg String.data h
  simp only [debugPinIncorrectMsg, str_data_append, List.append_eq_nil] at hd
  exact absurd hd.1.1.1 (by decide)

/-- A recorded tool call either has its `pin` argument absent or masked,
or is a `validate_account` call — the one call the first loop records with
its arguments copied verbatim. -/
def pinSafeOrVa (e : HEntry) : Bool :=
  match e with
  | HEntry.toolCall _ n args =>
      (match alookup args "pin" with
       | none => true
       | some v => v = some "****") || n = "validate_account"
  | _ => true

theorem pinSafeOrVa_toolResponse (i : String) (c : RDict) :
    pinSafeOrVa (HEntry.toolResponse i c) = true := rfl

theorem pinSafeOrVa_assistant (s : String) :
    pinSafeOrVa (HEntry.assistant s) = true := rfl

theorem pinSafeOrVa_of_notToolCall (e : HEntry)
    (h : notToolCallEntry e = true) : pinSafeOrVa e = true := by
  cases e <;> simp_all [pinSafeOrVa, notToolCallEntry]

theorem pinSafeOrVa_sanitized (sid : String) (caller : Option String)
    (cid : String) (i n : String) (tc : ToolCall) :
    pinSafeOrVa (HEntry.toolCall i n (loop_sanitized_args tc sid caller cid)) =
      true := by
  simp only [pinSafeOrVa]
  rw [loop_sanitized_args_pin]
  by_cases hp : (alookup tc.args "pin").isSome
  · simp [hp]
  · simp [hp]

/-- The loop invariant of `ptcLoop_entries_pinSafe`, generalized over the
entry predicate: any predicate holding of all non-tool-call entries and of
every sanitized recorded call is preserved by the second loop. -/
theorem ptcLoop_entries_pred (reg : Registry) (now : Int) (sid : String)
    (caller : Option String) (cid : String) (avr : Option RDict)
    (avid : Option String) (P : HEntry → Bool)
    (hN : ∀ e, notToolCallEntry e = true → P e = true)
    (hS : ∀ (i n : String) (tc : ToolCall),
      P (HEntry.toolCall i n (loop_sanitized_args tc sid caller cid)) = true) :
    ∀ (l : List ToolCall) (st : PTCState),
      st.entries.all P = true →
      (∀ sc, st.lastSanitized = some sc →
        P (HEntry.toolCall sc.id sc.name sc.args) = true) →
      (ptcLoop reg now sid caller cid avr avid l st).entries.all P = true := by
  have hResp : ∀ (i : String) (c : RDict), P (HEntry.toolResponse i c) = true :=
    fun i c => hN _ rfl
  intro l
  induction l with
  | nil => intro st h _; exact h
  | cons tc rest ih =>
      intro st hst hsan
      have hsargs := hS tc.id tc.name tc
      rw [ptcLoop.eq_def]
      dsimp only
      split
      · exact hst
      split
      · exact ih st hst hsan
      split
      · exact ih st hst hsan
      split
      · next r hreg =>
          have hptr : (process_tool_result reg now st.sessions st.auth sid
              tc.name (loop_full_args tc sid caller cid) r
              tc.id).entries.all P = true := by
            rw [List.all_eq_true]
            intro e he
            exact hN e (List.all_eq_true.mp
              (ptr_entries_notToolCall reg now st.sessions st.auth sid
                tc.name (loop_full_args tc sid caller cid) r tc.id) e he)
          split
          · refine ih _ ?_ ?_
            · rw [List.all_append, List.all_append]
              simp [hst, hsargs, hptr]
            · intro sc hsc
              simp only [Option.some.injEq] at hsc
              cases hsc
              exact hsargs
          · next e heq =>
              refine ih _ ?_ ?_
              · rw [List.all_append, List.all_append, List.all_append]
                simp [hst, hsargs, hptr, hResp]
              · intro sc hsc
                simp only [Option.some.injEq] at hsc
                cases hsc
                exact hsargs
          · next e heq =>
              rw [List.all_append, List.all_append]
              simp [hst, hsargs, hptr]
      · next e =>
          split
          · exact hst
          · next sc hls =>
              refine ih _ ?_ ?_
              · rw [List.all_append]
                simp [hst, hsan sc hls, hResp]
              · intro sc' hsc'
                exact hsan sc' hsc'
      · next e =>
          split
          · exact hst
          · next sc hls =>
              refine ih _ ?_ ?_
              · rw [List.all_append]
                simp [hst, hsan sc hls, hResp]
              · intro sc' hsc'
                exact hsan sc' hsc'
      · exact hst

/-- Unconditionally — whatever arguments the LLM supplies — every tool
call `_process_tool_calls` records either has its `pin` argument masked
(or absent) or is a `validate_account` call, whose record the first loop
copies verbatim. -/
theorem ptc_entries_pinSafeOrVa (reg : Registry) (now : Int)
    (sessions : SessionStore) (auth : AuthStore) (sid : String)
    (batch : List ToolCall) :
    (process_tool_calls reg now sessions auth sid
      batch).entries.all pinSafeOrVa = true := by
  unfold process_tool_calls
  rcases hgs : get_session_context sessions sid now with ⟨ctx, sessions0⟩
  dsimp only
  cases hfind : batch.find? (fun tc => tc.name = "validate_account") with
  | none =>
      exact ptcLoop_entries_pred reg now sid ctx.caller_id ctx.call_id
        none none pinSafeOrVa pinSafeOrVa_of_notToolCall
        (pinSafeOrVa_sanitized sid ctx.caller_id ctx.call_id) batch
        ⟨[], sessions0, auth, [], none, false⟩ rfl (fun sc h => by cases h)
  | some tc =>
      have hcall : pinSafeOrVa
          (HEntry.toolCall tc.id "validate_account"
            (first_va_args tc ctx.caller_id)) = true := by
        simp [pinSafeOrVa]
      dsimp only
      split
      · -- RegOutcome.ok
        next r hreg =>
          split
          · -- result invalid
            split
            · exact ptcLoop_entries_pred reg now sid ctx.caller_id
                ctx.call_id (some r) (some tc.id) pinSafeOrVa
                pinSafeOrVa_of_notToolCall
                (pinSafeOrVa_sanitized sid ctx.caller_id ctx.call_id) batch _
                (by simp [hcall, pinSafeOrVa_toolResponse])
                (fun sc h => by cases h)
            · exact ptcLoop_entries_pred reg now sid ctx.caller_id
                ctx.call_id (some r) (some tc.id) pinSafeOrVa
                pinSafeOrVa_of_notToolCall
                (pinSafeOrVa_sanitized sid ctx.caller_id ctx.call_id) batch _
                (by simp [hcall, pinSafeOrVa_toolResponse])
                (fun sc h => by cases h)
            · next last_digits heq2 =>
                split
                · simp [List.all_append, hcall, pinSafeOrVa_toolResponse,
                    pinSafeOrVa_assistant]
                · exact ptcLoop_entries_pred reg now sid ctx.caller_id
                    ctx.call_id (some r) (some tc.id) pinSafeOrVa
                    pinSafeOrVa_of_notToolCall
                    (pinSafeOrVa_sanitized sid ctx.caller_id ctx.call_id)
                    batch _ (by simp [hcall, pinSafeOrVa_toolResponse])
                    (fun sc h => by cases h)
          · exact ptcLoop_entries_pred reg now sid ctx.caller_id ctx.call_id
              (some r) (some tc.id) pinSafeOrVa pinSafeOrVa_of_notToolCall
              (pinSafeOrVa_sanitized sid ctx.caller_id ctx.call_id) batch _
              (by simp [hcall, pinSafeOrVa_toolResponse])
              (fun sc h => by cases h)
      · exact ptcLoop_entries_pred reg now sid ctx.caller_id ctx.call_id
          none none pinSafeOrVa pinSafeOrVa_of_notToolCall
          (pinSafeOrVa_sanitized sid ctx.caller_id ctx.call_id) batch _
          (by simp [pinSafeOrVa_toolResponse]) (fun sc h => by cases h)
      · exact ptcLoop_entries_pred reg now sid ctx.caller_id ctx.call_id
          none none pinSafeOrVa pinSafeOrVa_of_notToolCall
          (pinSafeOrVa_sanitized sid ctx.caller_id ctx.call_id) batch _
          (by simp [pinSafeOrVa_toolResponse]) (fun sc h => by cases h)
      · exact ptcLoop_entries_pred reg now sid ctx.caller_id ctx.call_id
          none none pinSafeOrVa pinSafeOrVa_of_notToolCall
          (pinSafeOrVa_sanitized sid ctx.caller_id ctx.call_id) batch _
          (by simp [pinSafeOrVa_toolResponse]) (fun sc h => by cases h)

/-- The session store, account and registry of the C3 leak scenario: a
selected account whose mock record stores PIN `4321`, and a PIN backend
that raises, so `_handle_pin_validation` returns `None`. -/
def c3LeakAccount : Account :=
  { account_number := "1311002345678", masked_account := "131100***5678"
    pin := some "4321" }

def c3LeakStore : SessionStore :=
  [("sess-3",
    { freshCtx "sess-3" none "web" 0 with
      caller_id := some "01712345678"
      account_retrieved := true
      retrieved_accounts := [c3LeakAccount]
      account_selected := true
      selected_account := some "1311002345678"
      awaiting_pin := true })]

def c3LeakReg : Registry := fun n _ =>
  if n = "validate_pin" then RegOutcome.raiseValue "timeout"
  else RegOutcome.ok [("valid", RVal.rbool true)]

/-- C3 counterexample: the raw PIN digits do appear in the persisted
conversation history.  When `_handle_pin_validation` returns `None` (here:
the PIN backend raises), the awaiting-PIN turn persists
`_simple_pin_check`'s debug string — which interpolates the caller's raw
PIN (and the stored expected PIN) — as an assistant message. -/
theorem C3_counterexample :
    (process_pin_turn c3LeakReg 0 c3LeakStore [] true true "sess-3"
      "1234").entries =
      [HEntry.assistant "DEBUG: PIN incorrect. Expected: 4321, got: 1234"] ∧
    strContains "DEBUG: PIN incorrect. Expected: 4321, got: 1234" "1234" =
      true := by
  exact ⟨rfl, by decide⟩

/-- C3 amended: masking holds at the tool-call level, but the raw PIN is
not banished from the history.  (i) Every tool-call entry
`_handle_pin_validation` writes carries the literal `****` as its `pin`
argument; (ii) hence, for a PIN other than the placeholder itself, no such
entry carries the raw PIN as its `pin` value; (iii) every tool-call entry
`_process_tool_calls` records — for any batch whatsoever — has its `pin`
argument masked or absent, except the first `validate_account` call, whose
record the first loop copies verbatim (only the tool schema keeps a PIN
out of it); (iv) but on the PIN-failure path, when `_handle_pin_validation`
returns `None` and the selected account is among the retrieved ones, the
persisted assistant reply is `_simple_pin_check`'s debug string, which
contains the raw PIN. -/
theorem C3_pin_masking :
    (∀ (reg : Registry) (now : Int) (sessions : SessionStore)
        (auth : AuthStore) (aOk cOk : Bool) (sid acc pin : String),
      (handle_pin_validation reg now sessions auth aOk cOk sid acc
        pin).entries.all pinMaskedEntry = true) ∧
    (∀ (reg : Registry) (now : Int) (sessions : SessionStore)
        (auth : AuthStore) (aOk cOk : Bool) (sid acc pin : String),
      pin ≠ "****" →
      ∀ e ∈ (handle_pin_validation reg now sessions auth aOk cOk sid acc
          pin).entries, ∀ i n args, e = HEntry.toolCall i n args →
        alookup args "pin" ≠ some (some pin)) ∧
    (∀ (reg : Registry) (now : Int) (sessions : SessionStore)
        (auth : AuthStore) (sid : String) (batch : List ToolCall),
      (process_tool_calls reg now sessions auth sid
        batch).entries.all pinSafeOrVa = true) ∧
    (∀ (reg : Registry) (now : Int) (sessions : SessionStore)
        (auth : AuthStore) (aOk cOk : Bool) (sid pin acct msg : String),
      (get_selected_account sessions sid now).1 = some acct →
      acct ≠ "" →
      (handle_pin_validation reg now
        (get_selected_account sessions sid now).2 auth aOk cOk sid acct
        pin).response = none →
      simple_pin_check
        (get_retrieved_accounts
          (handle_pin_validation reg now
            (get_selected_account sessions sid now).2 auth aOk cOk sid acct
            pin).sessions sid now).1 acct pin = some msg →
      (process_pin_turn reg now sessions auth aOk cOk sid pin).entries =
        (handle_pin_validation reg now
          (get_selected_account sessions sid now).2 auth aOk cOk sid acct
          pin).entries ++ [HEntry.assistant msg] ∧
      strContains msg pin = true) := by
  refine ⟨?_, ?_, ?_, ?_⟩
  · intro reg now sessions auth aOk cOk sid acc pin
    exact hpv_entries_pinMasked reg now sessions auth aOk cOk sid acc pin
  · intro reg now sessions auth aOk cOk sid acc pin hpin e he i n args heq
      hcontra
    have hall := hpv_entries_pinMasked reg now sessions auth aOk cOk sid acc
      pin
    have hmask := List.all_eq_true.mp hall e he
    rw [heq] at hmask
    simp only [pinMaskedEntry, decide_eq_true_eq] at hmask
    have h2 : "****" = pin := by
      simpa using hmask.symm.trans hcontra
    exact hpin h2.symm
  · intro reg now sessions auth sid batch
    exact ptc_entries_pinSafeOrVa reg now sessions auth sid batch
  · intro reg now sessions auth aOk cOk sid pin acct msg h1 h2 h3 h4
    have hmsg : strContains msg pin = true ∧ msg ≠ "" := by
      unfold simple_pin_check at h4
      cases hfind2 : List.find?
        (fun a => a.account_number = acct)
        (get_retrieved_accounts
          (handle_pin_validation reg now
            (get_selected_account sessions sid now).2 auth aOk cOk sid acct
            pin).sessions sid now).1 with
      | none => rw [hfind2] at h4; cases h4
      | some a =>
          rw [hfind2] at h4
          dsimp only at h4
          cases hap : a.pin with
          | some expected =>
              rw [hap] at h4
              dsimp only at h4
              by_cases he : expected = pin
              · rw [if_pos he] at h4
                have hm := Option.some.inj h4
                rw [← hm]
                exact ⟨debugPinValidMsg_contains expected pin,
                  debugPinValidMsg_ne_empty expected pin⟩
              · rw [if_neg he] at h4
                have hm := Option.some.inj h4
                rw [← hm]
                exact ⟨debugPinIncorrectMsg_contains expected pin,
                  debugPinIncorrectMsg_ne_empty expected pin⟩
          | none =>
              rw [hap] at h4
              dsimp only at h4
              have hm := Option.some.inj h4
              rw [← hm]
              exact ⟨debugPinIncorrectMsg_contains "None" pin,
                debugPinIncorrectMsg_ne_empty "None" pin⟩
    refine ⟨?_, hmsg.1⟩
    unfold process_pin_turn
    rcases hsel : get_selected_account sessions sid now with ⟨sel, s1⟩
    rw [hsel] at h1 h3 h4
    dsimp only at h1 h3 h4 ⊢
    rw [h1]
    dsimp only
    rw [if_neg h2, h3]
    dsimp only
    rcases hacc : get_retrieved_accounts
      (handle_pin_validation reg now s1 auth aOk cOk sid acct pin).sessions
      sid now with ⟨accounts, s2⟩
    rw [hacc] at h4
    dsimp only at h4
    rw [h4]
    unfold pyOrStr
    dsimp only
    rw [if_neg hmsg.2]

/-- The registry of the C3 witness scenario: a correct PIN and an
account-details backend. -/
def c3Reg : Registry := fun n _ =>
  if n = "validate_pin" then
    RegOutcome.ok
      [("valid", RVal.rbool true), ("message", RVal.rstr "PIN validated")]
  else if n = "get_account_details" then
    RegOutcome.ok
      [("status", RVal.rstr "success"),
       ("data", RVal.rdict
         [("formatted_balance", RVal.rstr "1,250.75"),
          ("currency", RVal.rstr "BDT"),
          ("account_status", RVal.rstr "OPERATIVE"),
          ("last_transaction", RVal.rstr "2025-01-01")])]
  else RegOutcome.ok [("valid", RVal.rbool true)]

def c3Batch : List ToolCall :=
  [⟨"call_1", "validate_account", [("account_number", some "5678")]⟩,
   ⟨"call_2", "validate_pin",
    [("account_number", some "5678"), ("pin", some "1234")]⟩]

/-- Witness for C3's amended theorem at a concrete PIN-validation turn, a
concrete two-call batch, and the concrete leak scenario. -/
theorem C3_pin_masking_witness :
    ((handle_pin_validation c3Reg 0 [] [] true true "sess-1" "1311002345678"
      "1234").entries.all pinMaskedEntry = true) ∧
    (alookup
        [("account_number", some "1311002345678"), ("pin", some "****"),
         ("mobile_number", (none : Option String))] "pin" ≠
      some (some "1234")) ∧
    ((process_tool_calls c3Reg 0 [] [] "sess-1" c3Batch).entries.all
      pinSafeOrVa = true) ∧
    ((process_pin_turn c3LeakReg 0 c3LeakStore [] true true "sess-3"
        "1234").entries =
      (handle_pin_validation c3LeakReg 0
        (get_selected_account c3LeakStore "sess-3" 0).2 [] true true "sess-3"
        "1311002345678" "1234").entries ++
        [HEntry.assistant "DEBUG: PIN incorrect. Expected: 4321, got: 1234"] ∧
      strContains "DEBUG: PIN incorrect. Expected: 4321, got: 1234" "1234" =
        true) :=
  ⟨C3_pin_masking.1 c3Reg 0 [] [] true true "sess-1" "1311002345678" "1234",
   C3_pin_masking.2.1 c3Reg 0 [] [] true true "sess-1" "1311002345678" "1234"
     (by decide)
     (HEntry.toolCall "pin_validation_call" "validate_pin"
       [("account_number", some "1311002345678"), ("pin", some "****"),
        ("mobile_number", none)])
     (List.mem_cons_self _ _) "pin_validation_call" "validate_pin"
     [("account_number", some "1311002345678"), ("pin", some "****"),
      ("mobile_number", none)] rfl,
   C3_pin_masking.2.2.1 c3Reg 0 [] [] "sess-1" c3Batch,
   C3_pin_masking.2.2.2 c3LeakReg 0 c3LeakStore [] true true "sess-3" "1234"
     "1311002345678" "DEBUG: PIN incorrect. Expected: 4321, got: 1234"
     rfl (by decide) rfl rfl⟩

/-! ### Tool-call ordering (claim C2) -/

/-- When account validation produced a non-empty invalid result, the
second loop only ever appends non-`validate_pin` invocations to the
executed list: every `validate_pin` call hits the skip branch. -/
theorem ptcLoop_executed_no_pin (reg : Registry) (now : Int) (sid : String)
    (caller : Option String) (cid : String) (r : RDict)
    (avid : Option String) (hne : r.isEmpty = false)
    (hinv : rtruthy (rget r "valid" (RVal.rbool false)) = false) :
    ∀ (l : List ToolCall) (st : PTCState),
      ∃ tail,
        (ptcLoop reg now sid caller cid (some r) avid l st).executed =
          st.executed ++ tail ∧
        ∀ p ∈ tail, p.1 ≠ "validate_pin" := by
  intro l
  induction l with
  | nil =>
      intro st
      exact ⟨[], by simp [ptcLoop], by simp⟩
  | cons tc rest ih =>
      intro st
      rw [ptcLoop.eq_def]
      dsimp only
      split
      · exact ⟨[], by simp, by simp⟩
      split
      · exact ih st
      split
      · exact ih st
      next hnp =>
        have hname : tc.name ≠ "validate_pin" := by
          intro hn
          exact hnp ⟨hn, by simp [hne, hinv]⟩
        split
        · -- RegOutcome.ok
          next r' hreg =>
            split
            · -- err = none
              obtain ⟨tail, heq, htail⟩ := ih _
              refine ⟨(tc.name, loop_full_args tc sid caller cid) :: tail,
                ?_, ?_⟩
              · rw [heq]
                simp
              · intro p hp
                rcases List.mem_cons.mp hp with hp | hp
                · rw [hp]
                  exact hname
                · exact htail p hp
            · -- err = keyE
              next e heq2 =>
                obtain ⟨tail, heq, htail⟩ := ih _
                refine ⟨(tc.name, loop_full_args tc sid caller cid) :: tail,
                  ?_, ?_⟩
                · rw [heq]
                  simp
                · intro p hp
                  rcases List.mem_cons.mp hp with hp | hp
                  · rw [hp]
                    exact hname
                  · exact htail p hp
            · -- err = fatalE
              refine ⟨[(tc.name, loop_full_args tc sid caller cid)], by simp,
                ?_⟩
              intro p hp
              rcases List.mem_cons.mp hp with hp | hp
              · rw [hp]
                exact hname
              · cases hp
        · -- raiseValue
          split
          · refine ⟨[(tc.name, loop_full_args tc sid caller cid)], by simp,
              ?_⟩
            intro p hp
            rcases List.mem_cons.mp hp with hp | hp
            · rw [hp]
              exact hname
            · cases hp
          · obtain ⟨tail, heq, htail⟩ := ih _
            refine ⟨(tc.name, loop_full_args tc sid caller cid) :: tail, ?_,
              ?_⟩
            · rw [heq]
              simp
            · intro p hp
              rcases List.mem_cons.mp hp with hp | hp
              · rw [hp]
                exact hname
              · exact htail p hp
        · -- raiseKey
          split
          · refine ⟨[(tc.name, loop_full_args tc sid caller cid)], by simp,
              ?_⟩
            intro p hp
            rcases List.mem_cons.mp hp with hp | hp
            · rw [hp]
              exact hname
            · cases hp
          · obtain ⟨tail, heq, htail⟩ := ih _
            refine ⟨(tc.name, loop_full_args tc sid caller cid) :: tail, ?_,
              ?_⟩
            · rw [heq]
              simp
            · intro p hp
              rcases List.mem_cons.mp hp with hp | hp
              · rw [hp]
                exact hname
              · exact htail p hp
        · -- raiseOther
          refine ⟨[(tc.name, loop_full_args tc sid caller cid)], by simp, ?_⟩
          intro p hp
          rcases List.mem_cons.mp hp with hp | hp
          · rw [hp]
            exact hname
          · cases hp

/-- The second loop only appends to the executed list, whatever the
registry answers and whatever the account-validation outcome was. -/
theorem ptcLoop_executed_prefix (reg : Registry) (now : Int) (sid : String)
    (caller : Option String) (cid : String) (avr : Option RDict)
    (avid : Option String) :
    ∀ (l : List ToolCall) (st : PTCState),
      ∃ tail,
        (ptcLoop reg now sid caller cid avr avid l st).executed =
          st.executed ++ tail := by
  intro l
  induction l with
  | nil =>
      intro st
      exact ⟨[], by simp [ptcLoop]⟩
  | cons tc rest ih =>
      intro st
      rw [ptcLoop.eq_def]
      dsimp only
      split
      · exact ⟨[], by simp⟩
      split
      · exact ih st
      split
      · exact ih st
      split
      · next r' hreg =>
          split
          · obtain ⟨tail, heq⟩ := ih _
            exact ⟨(tc.name, loop_full_args tc sid caller cid) :: tail,
              by rw [heq]; simp⟩
          · next e heq2 =>
              obtain ⟨tail, heq⟩ := ih _
              exact ⟨(tc.name, loop_full_args tc sid caller cid) :: tail,
                by rw [heq]; simp⟩
          · exact ⟨[(tc.name, loop_full_args tc sid caller cid)], by simp⟩
      · split
        · exact ⟨[(tc.name, loop_full_args tc sid caller cid)], by simp⟩
        · obtain ⟨tail, heq⟩ := ih _
          exact ⟨(tc.name, loop_full_args tc sid caller cid) :: tail,
            by rw [heq]; simp⟩
      · split
        · exact ⟨[(tc.name, loop_full_args tc sid caller cid)], by simp⟩
        · obtain ⟨tail, heq⟩ := ih _
          exact ⟨(tc.name, loop_full_args tc sid caller cid) :: tail,
            by rw [heq]; simp⟩
      · exact ⟨[(tc.name, loop_full_args tc sid caller cid)], by simp⟩

/-- C2: in a batch containing a `validate_account` call and a
`validate_pin` call, the (first) `validate_account` call is executed
first, whatever its position and whatever the validation outcome — the
first loop invokes it before the second loop runs anything; and when its
result is invalid — it carries a falsy `valid` entry, as the repository's
account validators always populate — `validate_pin` is never executed:
either the short-digits early return abandons the batch, or the skip
branch drops the PIN call. -/
theorem C2_validate_account_first (reg : Registry) (now : Int)
    (sessions : SessionStore) (auth : AuthStore) (sid : String)
    (batch : List ToolCall) (tc0 : ToolCall)
    (hfind : batch.find? (fun tc => tc.name = "validate_account") = some tc0)
    (_hpin : ∃ tc ∈ batch, tc.name = "validate_pin") :
    ((process_tool_calls reg now sessions auth sid batch).executed.head? =
      some ("validate_account",
        first_va_args tc0
          (get_session_context sessions sid now).1.caller_id)) ∧
    (∀ (r : RDict) (v : RVal),
      reg "validate_account"
        (first_va_args tc0
          (get_session_context sessions sid now).1.caller_id) =
        RegOutcome.ok r →
      alookup r "valid" = some v → rtruthy v = false →
      ∀ p ∈ (process_tool_calls reg now sessions auth sid batch).executed,
        p.1 ≠ "validate_pin") := by
  constructor
  · -- executed first, unconditionally on the validation outcome
    unfold process_tool_calls
    rcases hgs : get_session_context sessions sid now with ⟨ctx, sessions0⟩
    dsimp only
    rw [hfind]
    dsimp only
    cases hreg : reg "validate_account" (first_va_args tc0 ctx.caller_id) with
    | ok r =>
        dsimp only
        by_cases hc : (!rtruthy (rget r "valid" (RVal.rbool false))) = true
        · rw [if_pos hc]
          cases han : alookup (first_va_args tc0 ctx.caller_id)
            "account_number" with
          | none =>
              dsimp only
              obtain ⟨tail, heq⟩ := ptcLoop_executed_prefix reg now sid
                ctx.caller_id ctx.call_id (some r) (some tc0.id) batch _
              rw [heq]
              simp
          | some o =>
              cases o with
              | none =>
                  dsimp only
                  obtain ⟨tail, heq⟩ := ptcLoop_executed_prefix reg now sid
                    ctx.caller_id ctx.call_id (some r) (some tc0.id) batch _
                  rw [heq]
                  simp
              | some digits =>
                  dsimp only
                  by_cases hlen : digits.length ≤ 4
                  · rw [if_pos hlen]
                    rfl
                  · rw [if_neg hlen]
                    obtain ⟨tail, heq⟩ := ptcLoop_executed_prefix reg now sid
                      ctx.caller_id ctx.call_id (some r) (some tc0.id) batch _
                    rw [heq]
                    simp
        · rw [if_neg hc]
          obtain ⟨tail, heq⟩ := ptcLoop_executed_prefix reg now sid
            ctx.caller_id ctx.call_id (some r) (some tc0.id) batch _
          rw [heq]
          simp
    | raiseValue e =>
        dsimp only
        obtain ⟨tail, heq⟩ := ptcLoop_executed_prefix reg now sid
          ctx.caller_id ctx.call_id none none batch _
        rw [heq]
        simp
    | raiseKey e =>
        dsimp only
        obtain ⟨tail, heq⟩ := ptcLoop_executed_prefix reg now sid
          ctx.caller_id ctx.call_id none none batch _
        rw [heq]
        simp
    | raiseOther e =>
        dsimp only
        obtain ⟨tail, heq⟩ := ptcLoop_executed_prefix reg now sid
          ctx.caller_id ctx.call_id none none batch _
        rw [heq]
        simp
  · -- validate_pin never executed once the result is invalid
    intro r v hok hv hinv
    have hne : r.isEmpty = false := by
      cases r with
      | nil => simp [alookup] at hv
      | cons a t => rfl
    have hrget : rget r "valid" (RVal.rbool false) = v := by
      simp [rget, hv]
    have hinv' : rtruthy (rget r "valid" (RVal.rbool false)) = false := by
      rw [hrget]
      exact hinv
    unfold process_tool_calls
    rcases hgs : get_session_context sessions sid now with ⟨ctx, sessions0⟩
    rw [hgs] at hok
    dsimp only at hok ⊢
    rw [hfind]
    dsimp only
    rw [hok]
    dsimp only
    have hcond : (!rtruthy (rget r "valid" (RVal.rbool false))) = true := by
      rw [hinv']
      rfl
    rw [if_pos hcond]
    cases han : alookup (first_va_args tc0 ctx.caller_id) "account_number" with
    | none =>
        dsimp only
        obtain ⟨tail, heq, htail⟩ := ptcLoop_executed_no_pin reg now sid
          ctx.caller_id ctx.call_id r (some tc0.id) hne hinv' batch _
        intro p hp
        rw [heq] at hp
        simp only [List.cons_append, List.nil_append, List.mem_cons] at hp
        rcases hp with hp | hp
        · rw [hp]
          exact (by decide : ("validate_account" : String) ≠ "validate_pin")
        · exact htail p hp
    | some o =>
        cases o with
        | none =>
            dsimp only
            obtain ⟨tail, heq, htail⟩ := ptcLoop_executed_no_pin reg now sid
              ctx.caller_id ctx.call_id r (some tc0.id) hne hinv' batch _
            intro p hp
            rw [heq] at hp
            simp only [List.cons_append, List.nil_append, List.mem_cons] at hp
            rcases hp with hp | hp
            · rw [hp]
              exact (by decide : ("validate_account" : String) ≠ "validate_pin")
            · exact htail p hp
        | some digits =>
            dsimp only
            by_cases hlen : digits.length ≤ 4
            · rw [if_pos hlen]
              intro p hp
              simp only [List.mem_singleton] at hp
              rw [hp]
              exact (by decide : ("validate_account" : String) ≠ "validate_pin")
            · rw [if_neg hlen]
              obtain ⟨tail, heq, htail⟩ := ptcLoop_executed_no_pin reg now sid
                ctx.caller_id ctx.call_id r (some tc0.id) hne hinv' batch _
              intro p hp
              rw [heq] at hp
              simp only [List.cons_append, List.nil_append, List.mem_cons]
                at hp
              rcases hp with hp | hp
              · rw [hp]
                exact (by decide : ("validate_account" : String) ≠ "validate_pin")
              · exact htail p hp

/-- The registry of the C2 witness: account validation fails, everything
else succeeds. -/
def c2Reg : Registry := fun n _ =>
  if n = "validate_account" then
    RegOutcome.ok
      [("valid", RVal.rbool false),
       ("message", RVal.rstr "Account not found")]
  else RegOutcome.ok [("valid", RVal.rbool true)]

/-- A batch declaring `validate_pin` *before* `validate_account`. -/
def c2Batch : List ToolCall :=
  [⟨"call_1", "validate_pin",
    [("account_number", some "5678"), ("pin", some "1234")]⟩,
   ⟨"call_2", "validate_account", [("account_number", some "5678")]⟩]

/-- Witness for C2: with the PIN call declared first and an invalid
account, the executed trace starts with `validate_account` and the PIN
tool's name never appears in it. -/
theorem C2_validate_account_first_witness :
    (process_tool_calls c2Reg 0 [] [] "sess-9" c2Batch).executed.head? =
      some ("validate_account",
        first_va_args
          ⟨"call_2", "validate_account", [("account_number", some "5678")]⟩
          (get_session_context [] "sess-9" 0).1.caller_id) ∧
    ¬ ("validate_pin" ∈
      ((process_tool_calls c2Reg 0 [] [] "sess-9" c2Batch).executed.map
        Prod.fst)) := by
  have h := C2_validate_account_first c2Reg 0 [] [] "sess-9" c2Batch
    ⟨"call_2", "validate_account", [("account_number", some "5678")]⟩
    (by decide)
    ⟨⟨"call_1", "validate_pin",
      [("account_number", some "5678"), ("pin", some "1234")]⟩,
      by decide, rfl⟩
  refine ⟨h.1, fun hmem => ?_⟩
  obtain ⟨p, hp, hfst⟩ := List.mem_map.mp hmem
  exact h.2
    [("valid", RVal.rbool false), ("message", RVal.rstr "Account not found")]
    (RVal.rbool false) rfl rfl rfl p hp hfst

end Banking
